import Mathlib

/-!
Verification of the KiCad geometric collision engine mirror
(`src/libs/kimath/src/geometry/shape_collisions.cpp`) and of the interactive
polygon construction manager
(`src/common/preview_items/polygon_geom_manager.cpp`).

The development is a shallow embedding: the C++ routines in those two files are
translated function by function into executable Lean definitions.  C++ `int`
and the 64-bit `ecoord` extended type are both modelled as unbounded `Int`
(coordinates are 32-bit in the source, so the 64-bit intermediates used by the
source never overflow; sentinel constants `INT_MAX` / `ECOORD_MAX` are kept as
their literal values).  Out-parameters (`int* aActual`, `VECTOR2I* aLocation`,
`VECTOR2I* aMTV`) are modelled as request flags plus `Option` result slots:
`none` means the routine never wrote through the pointer.

Primitive geometry operations that live outside the mirrored sources
(`SEG::NearestPoint`, `SEG::SquaredDistance`, `VECTOR2::Resize`, the
`SHAPE_*::Collide(SEG&...)` members, `GetVectorSnapped45`,
`SHAPE_LINE_CHAIN::SelfIntersecting`, arc polyline conversion) are modelled
from the specification's description of the shape capability interface; each
such definition carries a doc comment starting `Modelled from the spec:`.
Floating-point `sqrt` on integer squared distances is modelled by integer
square roots (exact on perfect squares; concrete theorems only instantiate at
perfect squares).
-/

namespace Kicad

/-! ## Integer square roots

`(int) sqrt(x)` on a nonnegative integer truncates, i.e. takes the floor
square root; when the source subtracts the `sqrt` before the integer
conversion (`(int)(k - sqrt(x))`) the effective operation on the radicand is a
ceiling square root.  Both are defined by fuel-bounded structural recursion so
that the kernel can evaluate them. -/

def natSqrtGo (n : Nat) : Nat → Nat → Nat
  | 0, k => k
  | fuel+1, k => if (k+1)*(k+1) ≤ n then natSqrtGo n fuel (k+1) else k

/-- Floor square root on `Nat`. -/
def natSqrt (n : Nat) : Nat := natSqrtGo n n 0

theorem natSqrtGo_spec (n : Nat) : ∀ fuel k, k*k ≤ n →
    (natSqrtGo n fuel k) * (natSqrtGo n fuel k) ≤ n ∧
      (n < (natSqrtGo n fuel k + 1) * (natSqrtGo n fuel k + 1) ∨
        natSqrtGo n fuel k = k + fuel) := by
  intro fuel
  induction fuel with
  | zero => intro k hk; exact ⟨hk, Or.inr rfl⟩
  | succ m ih =>
    intro k hk
    by_cases h : (k+1)*(k+1) ≤ n
    · simp only [natSqrtGo, if_pos h]
      rcases ih (k+1) h with ⟨h1, h2⟩
      exact ⟨h1, h2.elim Or.inl (fun e => Or.inr (by omega))⟩
    · simp only [natSqrtGo, if_neg h]
      exact ⟨hk, Or.inl (by omega)⟩

theorem natSqrt_spec (n : Nat) :
    natSqrt n * natSqrt n ≤ n ∧ n < (natSqrt n + 1) * (natSqrt n + 1) := by
  rcases natSqrtGo_spec n n 0 (by omega) with ⟨h1, h2⟩
  refine ⟨h1, ?_⟩
  rcases h2 with h2 | h2
  · exact h2
  · unfold natSqrt; rw [h2]; nlinarith [h2, h1]

theorem natSqrt_lt_iff {n m : Nat} : natSqrt n < m ↔ n < m * m := by
  constructor
  · intro h
    have h2 := (natSqrt_spec n).2
    calc n < (natSqrt n + 1) * (natSqrt n + 1) := h2
      _ ≤ m * m := Nat.mul_le_mul h h
  · intro h
    by_contra hc
    push_neg at hc
    have := (natSqrt_spec n).1
    nlinarith

theorem natSqrt_mono {m n : Nat} (h : m ≤ n) : natSqrt m ≤ natSqrt n := by
  by_contra hc
  push_neg at hc
  have h1 := (natSqrt_spec n).2
  have h2 := (natSqrt_spec m).1
  have : n < natSqrt m * natSqrt m := by nlinarith
  omega

/-- `(int) sqrt(x)` on a nonnegative `ecoord`: floor square root. -/
def isqrt (n : Int) : Int := (natSqrt n.toNat : Int)

theorem isqrt_nonneg (n : Int) : 0 ≤ isqrt n := Int.ofNat_nonneg _

theorem isqrt_lt_iff {n c : Int} (hn : 0 ≤ n) (hc : 0 ≤ c) :
    isqrt n < c ↔ n < c * c := by
  unfold isqrt
  rcases Int.eq_ofNat_of_zero_le hn with ⟨a, rfl⟩
  rcases Int.eq_ofNat_of_zero_le hc with ⟨b, rfl⟩
  simp only [Int.toNat_ofNat]
  constructor
  · intro h
    have : natSqrt a < b := by exact_mod_cast h
    have := natSqrt_lt_iff.mp this
    exact_mod_cast this
  · intro h
    have : a < b * b := by exact_mod_cast h
    exact_mod_cast natSqrt_lt_iff.mpr this

theorem isqrt_mono {m n : Int} (h : m ≤ n) : isqrt m ≤ isqrt n := by
  unfold isqrt
  exact_mod_cast natSqrt_mono (Int.toNat_le_toNat h)

theorem isqrt_eq_zero_iff {n : Int} (hn : 0 ≤ n) : isqrt n = 0 ↔ n = 0 := by
  constructor
  · intro h
    have := (isqrt_lt_iff hn (by omega : (0:Int) ≤ 1)).mp (by omega)
    omega
  · intro h; subst h; rfl

/-- Ceiling square root on a nonnegative `ecoord`: models
`(int)(k - sqrt(x))` as `k - ceilSqrtI x` (truncation toward zero of a
positive difference). -/
def ceilSqrtI (n : Int) : Int :=
  if natSqrt n.toNat * natSqrt n.toNat = n.toNat then isqrt n else isqrt n + 1

theorem ceilSqrtI_le {n c : Int} (hn : 0 ≤ n) (hc : 0 ≤ c) (h : n < c * c) :
    ceilSqrtI n ≤ c := by
  have hs := (isqrt_lt_iff hn hc).mpr h
  unfold ceilSqrtI
  split <;> omega

/-! ## 2-D integer vectors (`VECTOR2I`) -/

/-- 2-D integer vector, the shallow embedding of `VECTOR2I`. -/
structure V2 where
  x : Int
  y : Int
deriving DecidableEq, Repr

instance : Add V2 := ⟨fun a b => ⟨a.x + b.x, a.y + b.y⟩⟩
instance : Sub V2 := ⟨fun a b => ⟨a.x - b.x, a.y - b.y⟩⟩
instance : Neg V2 := ⟨fun a => ⟨-a.x, -a.y⟩⟩

/-- The zero vector: `VECTOR2I()` default-initializes to `(0, 0)`. -/
def V2.zero : V2 := ⟨0, 0⟩

instance : Inhabited V2 := ⟨V2.zero⟩

/-- `VECTOR2I::SquaredEuclideanNorm` in `ecoord` precision. -/
def sqNorm (v : V2) : Int := v.x * v.x + v.y * v.y

/-- Dot product in `ecoord` precision. -/
def dotV (a b : V2) : Int := a.x * b.x + a.y * b.y

/-- Cross product (`VECTOR2::Cross`) in `ecoord` precision. -/
def crossV (a b : V2) : Int := a.x * b.y - a.y * b.x

/-- `(int) v.EuclideanNorm()`: floor square root of the squared norm. -/
def eNorm (v : V2) : Int := isqrt (sqNorm v)

/-- Componentwise truncating division by 2, as C++ `VECTOR2I / int`
(truncation toward zero). -/
def V2.half (v : V2) : V2 := ⟨Int.tdiv v.x 2, Int.tdiv v.y 2⟩

theorem sqNorm_nonneg (v : V2) : 0 ≤ sqNorm v :=
  add_nonneg (mul_self_nonneg _) (mul_self_nonneg _)

theorem sqNorm_neg (v : V2) : sqNorm (-v) = sqNorm v := by
  show sqNorm ⟨-v.x, -v.y⟩ = sqNorm v
  unfold sqNorm; ring

theorem sqNorm_sub_comm (a b : V2) : sqNorm (a - b) = sqNorm (b - a) := by
  show sqNorm ⟨a.x - b.x, a.y - b.y⟩ = sqNorm ⟨b.x - a.x, b.y - a.y⟩
  unfold sqNorm; ring

theorem neg_neg_v2 (v : V2) : - -v = v := by
  show (⟨-(-v.x), -(-v.y)⟩ : V2) = v
  cases v; simp

/-- Rounded scaling `rescale(a, b, c) = a * b / c` rounded to nearest,
the integer `rescale` specialization used by `VECTOR2::Resize`,
`SEG::NearestPoint` and `SEG::SquaredDistance`.
Modelled from the spec: the exact-arithmetic helpers of the Point/Segment
data model round multiplicative rescalings to the nearest integer. -/
def roundScale (a b c : Int) : Int :=
  if c = 0 then 0
  else
    Int.sign a * Int.sign b * Int.sign c *
      (((a.natAbs * b.natAbs + c.natAbs / 2) / c.natAbs : Nat) : Int)

theorem roundScale_nonneg {a b c : Int} (ha : 0 ≤ a) (hb : 0 ≤ b) (hc : 0 ≤ c) :
    0 ≤ roundScale a b c := by
  unfold roundScale
  split
  · omega
  · have h1 : (0:Int) ≤ Int.sign a := Int.sign_nonneg.mpr ha
    have h2 : (0:Int) ≤ Int.sign b := Int.sign_nonneg.mpr hb
    have h3 : (0:Int) ≤ Int.sign c := Int.sign_nonneg.mpr hc
    have h4 : (0:Int) ≤ (((a.natAbs * b.natAbs + c.natAbs / 2) / c.natAbs : Nat) : Int) :=
      Int.ofNat_nonneg _
    exact mul_nonneg (mul_nonneg (mul_nonneg h1 h2) h3) h4

/-- Nearest-integer square root: `KiROUND(sqrt n)` for a nonnegative
radicand, used by the `VECTOR2::Resize` model. -/
def roundSqrt (n : Int) : Int :=
  if n.toNat > natSqrt n.toNat * natSqrt n.toNat + natSqrt n.toNat then
    (natSqrt n.toNat : Int) + 1
  else (natSqrt n.toNat : Int)

theorem roundSqrt_nonneg (n : Int) : 0 ≤ roundSqrt n := by
  unfold roundSqrt
  split <;> positivity

/-- `VECTOR2::Resize(aNewLength)`.
Modelled from the spec: produces a vector in the direction of `v` whose
length is (approximately, with per-component nearest rounding) `l`; the MTV
direction is the normalized delta scaled to the requested magnitude.
Per component: `sign(v.i) * round(sqrt(round(l^2 * v.i^2 / |v|^2))) * sign(l)`. -/
def resizeV (v : V2) (l : Int) : V2 :=
  if v = V2.zero then V2.zero
  else
    ⟨(if v.x < 0 then -1 else 1) * roundSqrt (roundScale (l * l) (v.x * v.x) (sqNorm v)) *
       (if l < 0 then -1 else 1),
     (if v.y < 0 then -1 else 1) * roundSqrt (roundScale (l * l) (v.y * v.y) (sqNorm v)) *
       (if l < 0 then -1 else 1)⟩

theorem roundScale_zero_mid (a c : Int) : roundScale a 0 c = 0 := by
  unfold roundScale
  split
  · rfl
  · simp

theorem neg_mk (a b : Int) : -(V2.mk a b) = V2.mk (-a) (-b) := rfl

theorem neg_eq_zero_v2 {v : V2} (h : -v = V2.zero) : v = V2.zero := by
  have h2 : v = - -v := (neg_neg_v2 v).symm
  rw [h] at h2
  exact h2.trans (by decide)

theorem resizeV_comp_neg (xi llsq lsq : Int) :
    (if -xi < 0 then (-1:Int) else 1) * roundSqrt (roundScale llsq (-xi * -xi) lsq)
      = -((if xi < 0 then (-1:Int) else 1) * roundSqrt (roundScale llsq (xi * xi) lsq)) := by
  have hsq : -xi * -xi = xi * xi := by ring
  rw [hsq]
  rcases lt_trichotomy xi 0 with h | h | h
  · rw [if_neg (by omega), if_pos h]; ring
  · subst h
    norm_num [roundScale_zero_mid, roundSqrt, natSqrt, natSqrtGo]
  · rw [if_pos (by omega), if_neg (by omega)]; ring

theorem resizeV_neg (v : V2) (l : Int) : resizeV (-v) l = -(resizeV v l) := by
  unfold resizeV
  by_cases h : v = V2.zero
  · subst h
    rw [if_pos rfl, if_pos (by decide)]
    rfl
  · have hnz : ¬(-v = V2.zero) := fun hc => h (neg_eq_zero_v2 hc)
    rw [if_neg h, if_neg hnz, sqNorm_neg]
    simp only [show (-v).x = -v.x from rfl, show (-v).y = -v.y from rfl]
    rw [resizeV_comp_neg v.x (l * l) (sqNorm v), resizeV_comp_neg v.y (l * l) (sqNorm v)]
    rw [neg_mk]
    simp only [V2.mk.injEq]
    constructor <;> ring

/-! ## Segments (`SEG`) -/

/-- A bare line segment between two integer points, the embedding of `SEG`. -/
structure Seg where
  a : V2
  b : V2
deriving DecidableEq, Repr

/-- `SEG::NearestPoint(aP)`.
Modelled from the spec: the Segment data model supports
nearest-point-to-query; the projection parameter is clamped to the segment
and the projected point is rounded to integer coordinates (exact whenever the
segment is axis-aligned, which is the only case the concrete theorems below
evaluate). -/
def segNearestPoint (s : Seg) (p : V2) : V2 :=
  let d := s.b - s.a
  let lsq := sqNorm d
  if lsq = 0 then s.a
  else
    let t := dotV d (p - s.a)
    if t ≤ 0 then s.a
    else if lsq ≤ t then s.b
    else s.a + ⟨roundScale t d.x lsq, roundScale t d.y lsq⟩

/-- `SEG::SquaredDistance(aP)` for a point.
Modelled from the spec: squared distance from a point to a segment in
extended precision, with the off-axis projection residue rounded to the
nearest integer. -/
def ptSegSq (s : Seg) (p : V2) : Int :=
  let d := s.b - s.a
  let lsq := sqNorm d
  if lsq = 0 then sqNorm (p - s.a)
  else
    let t := dotV d (p - s.a)
    if t ≤ 0 then sqNorm (p - s.a)
    else if lsq ≤ t then sqNorm (p - s.b)
    else roundScale (crossV d (p - s.a)) (crossV d (p - s.a)) lsq

theorem roundScale_sq_nonneg (a c : Int) (hc : 0 ≤ c) : 0 ≤ roundScale a a c := by
  unfold roundScale
  split
  · omega
  · have h1 : 0 ≤ Int.sign a * Int.sign a := mul_self_nonneg _
    have h2 : 0 ≤ Int.sign c := Int.sign_nonneg.mpr hc
    have h4 : (0:Int) ≤ (((a.natAbs * a.natAbs + c.natAbs / 2) / c.natAbs : Nat) : Int) :=
      Int.ofNat_nonneg _
    calc (0:Int) ≤ (Int.sign a * Int.sign a * Int.sign c) *
          (((a.natAbs * a.natAbs + c.natAbs / 2) / c.natAbs : Nat) : Int) :=
        mul_nonneg (mul_nonneg h1 h2) h4
      _ = _ := by ring

theorem ptSegSq_nonneg (s : Seg) (p : V2) : 0 ≤ ptSegSq s p := by
  unfold ptSegSq
  dsimp only
  split
  · exact sqNorm_nonneg _
  · split
    · exact sqNorm_nonneg _
    · split
      · exact sqNorm_nonneg _
      · exact roundScale_sq_nonneg _ _ (sqNorm_nonneg _)

/-- Axis-aligned bounding interval overlap of two segments: helper for the
segment-intersection test. -/
def boxesOverlap (s t : Seg) : Bool :=
  decide (min s.a.x s.b.x ≤ max t.a.x t.b.x) &&
  decide (min t.a.x t.b.x ≤ max s.a.x s.b.x) &&
  decide (min s.a.y s.b.y ≤ max t.a.y t.b.y) &&
  decide (min t.a.y t.b.y ≤ max s.a.y s.b.y)

/-- Orientation of point `c` relative to the directed line through `s`:
positive / zero / negative cross product. -/
def orient (s : Seg) (c : V2) : Int := crossV (s.b - s.a) (c - s.a)

/-- One straddling condition of the segment intersection test. -/
def straddles (s t : Seg) : Bool :=
  decide (orient s t.a * orient s t.b ≤ 0)

/-- `SEG` intersection (segment touching or crossing included).
Modelled from the spec: the Segment data model supports
segment-vs-segment intersection; the standard orientation/straddle test with
a bounding-interval guard for the collinear case. -/
def segsCross (s t : Seg) : Bool :=
  boxesOverlap s t && straddles s t && straddles t s

theorem boxesOverlap_comm (s t : Seg) : boxesOverlap s t = boxesOverlap t s := by
  unfold boxesOverlap
  by_cases h1 : min s.a.x s.b.x ≤ max t.a.x t.b.x <;>
    by_cases h2 : min t.a.x t.b.x ≤ max s.a.x s.b.x <;>
      by_cases h3 : min s.a.y s.b.y ≤ max t.a.y t.b.y <;>
        by_cases h4 : min t.a.y t.b.y ≤ max s.a.y s.b.y <;>
          simp [h1, h2, h3, h4]

theorem segsCross_comm (s t : Seg) : segsCross s t = segsCross t s := by
  unfold segsCross
  rw [boxesOverlap_comm]
  by_cases h1 : straddles s t <;> by_cases h2 : straddles t s <;> simp [h1, h2]

/-- `SEG::SquaredDistance(SEG)`.
Modelled from the spec: segment-pair squared distance; zero when the segments
intersect, otherwise the minimum of the four endpoint-to-other-segment
squared distances. -/
def segSegSq (s t : Seg) : Int :=
  if segsCross s t then 0
  else
    min (min (ptSegSq s t.a) (ptSegSq s t.b)) (min (ptSegSq t s.a) (ptSegSq t s.b))

theorem segSegSq_nonneg (s t : Seg) : 0 ≤ segSegSq s t := by
  unfold segSegSq
  split
  · omega
  · exact le_min (le_min (ptSegSq_nonneg _ _) (ptSegSq_nonneg _ _))
      (le_min (ptSegSq_nonneg _ _) (ptSegSq_nonneg _ _))

theorem segSegSq_comm (s t : Seg) : segSegSq s t = segSegSq t s := by
  unfold segSegSq
  rw [segsCross_comm]
  split
  · rfl
  · rw [min_comm (min (ptSegSq t s.a) (ptSegSq t s.b))]

/-- `(int) sqrt` of the segment-pair squared distance (`SEG::Distance`). -/
def segDist (s : Seg) (p : V2) : Int := isqrt (ptSegSq s p)

/-- `INT_MAX`, the sentinel used by the chain-iteration collision loops. -/
def intMax : Int := 2147483647

/-- `VECTOR2I::ECOORD_MAX`, the sentinel used by the rect–circle side loop. -/
def ecoordMax : Int := 9223372036854775807

/-! ## Fold-min helpers for the segment-iteration loops -/

/-- Minimum of a list of `ecoord`s with an explicit initial sentinel,
as accumulated by the source's iteration loops. -/
def foldMin (l : List Int) (init : Int) : Int := l.foldr min init

theorem foldMin_nil (init : Int) : foldMin [] init = init := rfl

theorem foldMin_cons (a : Int) (l : List Int) (init : Int) :
    foldMin (a :: l) init = min a (foldMin l init) := rfl

theorem foldMin_lt_iff {l : List Int} {init x : Int} :
    foldMin l init < x ↔ init < x ∨ ∃ a ∈ l, a < x := by
  induction l with
  | nil => simp [foldMin_nil]
  | cons a l ih =>
    rw [foldMin_cons, min_lt_iff, ih]
    constructor
    · rintro (h | h | ⟨b, hb, hbx⟩)
      · exact Or.inr ⟨a, List.mem_cons_self .., h⟩
      · exact Or.inl h
      · exact Or.inr ⟨b, List.mem_cons_of_mem _ hb, hbx⟩
    · rintro (h | ⟨b, hb, hbx⟩)
      · exact Or.inr (Or.inl h)
      · rcases List.mem_cons.mp hb with rfl | hb
        · exact Or.inl hbx
        · exact Or.inr (Or.inr ⟨b, hb, hbx⟩)

theorem le_foldMin_iff {l : List Int} {init x : Int} :
    x ≤ foldMin l init ↔ x ≤ init ∧ ∀ a ∈ l, x ≤ a := by
  induction l with
  | nil => simp [foldMin_nil]
  | cons a l ih =>
    rw [foldMin_cons, le_min_iff, ih]
    constructor
    · rintro ⟨ha, hi, hl⟩
      exact ⟨hi, fun b hb => (List.mem_cons.mp hb).elim (fun h => h ▸ ha) (hl b)⟩
    · rintro ⟨hi, hl⟩
      exact ⟨hl a (List.mem_cons_self ..), hi, fun b hb => hl b (List.mem_cons_of_mem _ hb)⟩

theorem foldMin_eq_init_or_mem (l : List Int) (init : Int) :
    foldMin l init = init ∨ foldMin l init ∈ l := by
  induction l with
  | nil => exact Or.inl rfl
  | cons a l ih =>
    rw [foldMin_cons]
    rcases min_choice a (foldMin l init) with h | h
    · rw [h]; exact Or.inr (List.mem_cons_self ..)
    · rw [h]
      rcases ih with h2 | h2
      · exact Or.inl h2
      · exact Or.inr (List.mem_cons_of_mem _ h2)

theorem foldMin_nonneg {l : List Int} {init : Int} (hi : 0 ≤ init)
    (hl : ∀ a ∈ l, 0 ≤ a) : 0 ≤ foldMin l init :=
  le_foldMin_iff.mpr ⟨hi, hl⟩

theorem foldMin_le_mem {l : List Int} {init a : Int} (h : a ∈ l) :
    foldMin l init ≤ a := by
  by_contra hc
  push_neg at hc
  have := le_foldMin_iff.mp (le_refl (foldMin l init))
  exact absurd (this.2 a h) (by omega)

theorem foldMin_le_init (l : List Int) (init : Int) : foldMin l init ≤ init :=
  (le_foldMin_iff.mp (le_refl _)).1

/-! ## Shape data (`SHAPE_CIRCLE`, `SHAPE_RECT`, `SHAPE_SEGMENT`,
`SHAPE_LINE_CHAIN`) -/

/-- `SHAPE_CIRCLE`: center and radius. -/
structure CIRCLE where
  c : V2
  r : Int
deriving DecidableEq, Repr

/-- `SHAPE_RECT`: origin (`GetPosition`) and size, axis-aligned. -/
structure RECT where
  p0 : V2
  size : V2
deriving DecidableEq, Repr

/-- `SHAPE_SEGMENT`: an underlying `SEG` plus a stadium width. -/
structure SEGMENT where
  seg : Seg
  width : Int
deriving DecidableEq, Repr

/-- `SHAPE_LINE_CHAIN` (and the `SHAPE_LINE_CHAIN_BASE` capability view):
an ordered point sequence plus a closed flag. -/
structure LineChain where
  pts : List V2
  closed : Bool
deriving DecidableEq, Repr

/-- The open-polyline segments of a point list. -/
def segsOfPts : List V2 → List Seg
  | a :: b :: rest => ⟨a, b⟩ :: segsOfPts (b :: rest)
  | _ => []

/-- `GetSegmentCount` / `GetSegment i` materialized as a list: the chain's
segments, including the closing segment when the chain is closed. -/
def segsOf (ch : LineChain) : List Seg :=
  segsOfPts ch.pts ++
    (if ch.closed then
       match ch.pts with
       | a :: b :: rest => [⟨(b :: rest).getLast (by simp), a⟩]
       | _ => []
     else [])

/-- `SHAPE_LINE_CHAIN_BASE::PointInside`.
Modelled from the spec: even–odd ray-casting point-in-polygon test over the
chain's segments (horizontal ray toward `+x`). -/
def pointInsideChain (ch : LineChain) (p : V2) : Bool :=
  (segsOf ch).countP (fun s =>
    (decide (s.a.y ≤ p.y) != decide (s.b.y ≤ p.y)) &&
      decide (crossV (s.b - s.a) (p - s.a) * (s.b.y - s.a.y) < 0)) % 2 == 1

/-- Result slots of a `SHAPE_*::Collide(SEG&, clearance, int*, VECTOR2I*)`
member call: hit flag plus optional written `aActual` / `aLocation`. -/
structure MRes where
  hit : Bool
  actual : Option Int
  location : Option V2
deriving DecidableEq, Repr

/-- `SHAPE_CIRCLE::Collide(SEG&, aClearance, aActual, aLocation)`.
Modelled from the spec: collides iff the distance from the segment to the
circle is strictly less than the clearance (i.e. center-to-segment distance
below `clearance + r`); reports the clamped remaining gap and the nearest
point of the segment. -/
def circleCollideSeg (A : CIRCLE) (s : Seg) (clr : Int) (wA wL : Bool) : MRes :=
  if 0 < clr + A.r ∧ ptSegSq s A.c < (clr + A.r) * (clr + A.r) then
    { hit := true
      actual := if wA then some (max 0 (isqrt (ptSegSq s A.c) - A.r)) else none
      location := if wL then some (segNearestPoint s A.c) else none }
  else ⟨false, none, none⟩

/-- The four rectangle corners, in the order the source's `vts` array lists
them. -/
def rectVts (A : RECT) : List V2 :=
  [A.p0, ⟨A.p0.x, A.p0.y + A.size.y⟩, ⟨A.p0.x + A.size.x, A.p0.y + A.size.y⟩,
   ⟨A.p0.x + A.size.x, A.p0.y⟩]

/-- The four boundary sides of a rectangle, in iteration order. -/
def rectSides (A : RECT) : List Seg :=
  [⟨A.p0, ⟨A.p0.x, A.p0.y + A.size.y⟩⟩,
   ⟨⟨A.p0.x, A.p0.y + A.size.y⟩, ⟨A.p0.x + A.size.x, A.p0.y + A.size.y⟩⟩,
   ⟨⟨A.p0.x + A.size.x, A.p0.y + A.size.y⟩, ⟨A.p0.x + A.size.x, A.p0.y⟩⟩,
   ⟨⟨A.p0.x + A.size.x, A.p0.y⟩, A.p0⟩]

/-- Whether a point lies in the rectangle, boundary inclusive (the source's
`inside` test in the rect–circle routine). -/
def ptInRect (A : RECT) (p : V2) : Bool :=
  decide (A.p0.x ≤ p.x) && decide (p.x ≤ A.p0.x + A.size.x) &&
  decide (A.p0.y ≤ p.y) && decide (p.y ≤ A.p0.y + A.size.y)

/-- Squared distance from a (solid) rectangle to a segment: zero if the
segment enters the rectangle, else the minimum over the four sides. -/
def rectSegSq (A : RECT) (s : Seg) : Int :=
  if ptInRect A s.a ∨ ptInRect A s.b ∨ (rectSides A).any (fun t => segsCross t s) then 0
  else foldMin ((rectSides A).map (fun t => segSegSq t s)) ecoordMax

/-- `SHAPE_RECT::Collide(SEG&, aClearance, aActual, aLocation)`.
Modelled from the spec: collides iff the distance between the solid
rectangle and the segment is strictly less than the clearance; reports the
clamped gap and a representative boundary point. -/
def rectCollideSeg (A : RECT) (s : Seg) (clr : Int) (wA wL : Bool) : MRes :=
  if 0 < clr ∧ rectSegSq A s < clr * clr then
    { hit := true
      actual := if wA then some (isqrt (rectSegSq A s)) else none
      location := if wL then some (segNearestPoint s (A.p0 + A.size.half)) else none }
  else ⟨false, none, none⟩

/-- Minimum squared distance from a chain's segments to a query segment
(`ECOORD_MAX` when the chain has no segments, as in the source loops). -/
def chainSegSq (segs : List Seg) (s : Seg) : Int :=
  foldMin (segs.map (fun t => segSegSq t s)) ecoordMax

/-- Representative nearest location for a chain-vs-segment query: the
nearest point of the first chain segment achieving the minimal squared
distance. -/
def chainNearLoc (segs : List Seg) (s : Seg) : V2 :=
  (segs.foldl
    (fun acc t =>
      if segSegSq t s < acc.1 then (segSegSq t s, segNearestPoint t s.a) else acc)
    ((ecoordMax : Int), V2.zero)).2

/-- `SHAPE_LINE_CHAIN_BASE::Collide(SEG&, aClearance, aActual, aLocation)`.
Modelled from the spec: iterates the chain's constituent segments and takes
the minimum distance (per the source's own remark, closed-shape containment
is not handled here); collides iff that minimum is strictly below the
clearance. -/
def chainCollideSeg (segs : List Seg) (s : Seg) (clr : Int) (wA wL : Bool) : MRes :=
  if 0 < clr ∧ chainSegSq segs s < clr * clr then
    { hit := true
      actual := if wA then some (isqrt (chainSegSq segs s)) else none
      location := if wL then some (chainNearLoc segs s) else none }
  else ⟨false, none, none⟩

/-- `SHAPE_SEGMENT::Collide(SEG&, aClearance, aActual, aLocation)`.
Modelled from the spec: the stadium's own half-width is added to the
clearance for the geometric test and subtracted back out of the reported
actual distance. -/
def segShapeCollideSeg (A : SEGMENT) (s : Seg) (clr : Int) (wA wL : Bool) : MRes :=
  if 0 < clr + Int.tdiv A.width 2 ∧
      segSegSq A.seg s < (clr + Int.tdiv A.width 2) * (clr + Int.tdiv A.width 2) then
    { hit := true
      actual := if wA then some (max 0 (isqrt (segSegSq A.seg s) - Int.tdiv A.width 2)) else none
      location := if wL then some (segNearestPoint A.seg s.a) else none }
  else ⟨false, none, none⟩

/-! ## Pairwise collision routines (`shape_collisions.cpp`) -/

/-- Result slots of a pairwise `Collide` routine: hit flag plus the optional
written `aActual` / `aLocation` / `aMTV` out-parameters. -/
structure CollResult where
  hit : Bool
  actual : Option Int
  location : Option V2
  mtv : Option V2
deriving DecidableEq, Repr

/-- The all-false result of a non-colliding call: nothing written. -/
def noColl : CollResult := ⟨false, none, none, none⟩

/-- `Collide(SHAPE_CIRCLE, SHAPE_CIRCLE)` (lines 43–67): squared distance of
the centers against `(clearance + rA + rB)^2`; on hit, clamped actual,
midpoint location, and an MTV along the center-to-center delta of magnitude
`min_dist - dist + 3`. -/
def collideCC (A B : CIRCLE) (clr : Int) (wA wL wM : Bool) : CollResult :=
  if sqNorm (B.c - A.c) < (clr + A.r + B.r) * (clr + A.r + B.r) then
    { hit := true
      actual := if wA then some (max 0 (isqrt (sqNorm (B.c - A.c)) - A.r - B.r)) else none
      location := if wL then some (V2.half (A.c + B.c)) else none
      mtv := if wM then
          some (resizeV (B.c - A.c) (clr + A.r + B.r + 3 - ceilSqrtI (sqNorm (B.c - A.c))))
        else none }
  else noColl

/-- The side-iteration loop of `Collide(SHAPE_RECT, SHAPE_CIRCLE)`
(lines 99–115), including its early `break`: the loop stops as soon as the
running nearest point improves while
`(nearest_side_dist_sq == 0 || !aActual) && !aMTV`. -/
def rcLoop (c : V2) (wA wM : Bool) : List Seg → V2 → Int → V2 × Int
  | [], nearest, nsq => (nearest, nsq)
  | s :: rest, nearest, nsq =>
    if sqNorm (segNearestPoint s c - c) < nsq then
      if (sqNorm (segNearestPoint s c - c) = 0 ∨ wA = false) ∧ wM = false then
        (segNearestPoint s c, sqNorm (segNearestPoint s c - c))
      else rcLoop c wA wM rest (segNearestPoint s c) (sqNorm (segNearestPoint s c - c))
    else rcLoop c wA wM rest nearest nsq

/-- `Collide(SHAPE_RECT, SHAPE_CIRCLE)` (lines 70–139): inside test
(boundary inclusive), early inside-return for pure boolean queries, nearest
side search with the source's short-circuit, MTV pushing the circle away
from (outside) or through (inside) the nearest boundary point. -/
def collideRC (A : RECT) (B : CIRCLE) (clr : Int) (wA wL wM : Bool) : CollResult :=
  if ptInRect A B.c ∧ wA = false ∧ wL = false ∧ wM = false then
    ⟨true, none, none, none⟩
  else
    let nr := rcLoop B.c wA wM (rectSides A) V2.zero ecoordMax
    if ptInRect A B.c = true ∨ nr.2 < (clr + B.r) * (clr + B.r) then
      { hit := true
        actual := if wA then some (max 0 (isqrt nr.2 - B.r)) else none
        location := if wL then some nr.1 else none
        mtv := if wM then some (
            if ptInRect A B.c then -(resizeV (B.c - nr.1) (clr + B.r + 2 + isqrt nr.2))
            else resizeV (B.c - nr.1) (clr + B.r + 2 - ceilSqrtI nr.2)) else none }
    else noColl

/-- The correction loop of `pushoutForce` (lines 156–162): up to five
attempts with growing overshoot `corr`, stopping when the pushed circle
clears the segment; the last computed force is kept regardless. -/
def pushoutLoop (A : CIRCLE) (s : Seg) (minDist dist : Int) : Nat → Int → V2
  | 0, corr => resizeV (A.c - segNearestPoint s A.c) (minDist - dist + corr)
  | fuel+1, corr =>
    if minDist ≤ isqrt (ptSegSq s (A.c + resizeV (A.c - segNearestPoint s A.c)
        (minDist - dist + corr))) then
      resizeV (A.c - segNearestPoint s A.c) (minDist - dist + corr)
    else pushoutLoop A s minDist dist fuel (corr + 1)

/-- `pushoutForce(SHAPE_CIRCLE, SEG, clearance)` (lines 142–166): the force
pushing the circle away from the segment's nearest point until the segment
distance clears `clearance + r`; zero when already clear. -/
def pushoutForce (A : CIRCLE) (s : Seg) (clr : Int) : V2 :=
  if eNorm (segNearestPoint s A.c - A.c) < clr + A.r then
    pushoutLoop A s (clr + A.r) (eNorm (segNearestPoint s A.c - A.c)) 4 0
  else V2.zero

/-- The segment-iteration loop shared by the circle–chain, chain–chain and
rect–chain routines (lines 175–193 / 249–267 / 303–321), parameterized over
the per-segment member call; `cd` is the member's written collision distance
(left `0` when the member was not asked for it), and the loop breaks on an
improvement when `closest_dist == 0 || !aActual`. -/
def iterSegLoop (f : Seg → MRes) (wA : Bool) : List Seg → Int → V2 → Int × V2
  | [], closest, nearest => (closest, nearest)
  | s :: rest, closest, nearest =>
    if (f s).hit then
      if (f s).actual.getD 0 < closest then
        if (f s).actual.getD 0 = 0 ∨ wA = false then
          ((f s).actual.getD 0, (f s).location.getD V2.zero)
        else iterSegLoop f wA rest ((f s).actual.getD 0) ((f s).location.getD V2.zero)
      else iterSegLoop f wA rest closest nearest
    else iterSegLoop f wA rest closest nearest

/-- The MTV accumulation of `Collide(SHAPE_CIRCLE, SHAPE_LINE_CHAIN_BASE)`
(lines 203–216): pushes a moving copy of the circle away from each segment
in turn, summing the forces. -/
def mtvStep (clr : Int) (acc : CIRCLE × V2) (s : Seg) : CIRCLE × V2 :=
  (⟨acc.1.c + pushoutForce acc.1 s clr, acc.1.r⟩, acc.2 + pushoutForce acc.1 s clr)

/-- Total accumulated pushout MTV for a circle against a chain's segments. -/
def mtvTotal (A : CIRCLE) (segs : List Seg) (clr : Int) : V2 :=
  (segs.foldl (mtvStep clr) (A, V2.zero)).2

/-- `Collide(SHAPE_CIRCLE, SHAPE_LINE_CHAIN_BASE)` (lines 169–222). -/
def collideCircleChain (A : CIRCLE) (segs : List Seg) (clr : Int) (wA wL wM : Bool) :
    CollResult :=
  let lp := iterSegLoop (fun s => circleCollideSeg A s clr (wA || wL) wL) wA segs intMax V2.zero
  if lp.1 < clr then
    { hit := true
      actual := if wA then some lp.1 else none
      location := if wL then some lp.2 else none
      mtv := if wM then some (mtvTotal A segs clr) else none }
  else noColl

/-- `Collide(SHAPE_LINE_CHAIN_BASE, SHAPE_LINE_CHAIN_BASE)` (lines 240–281):
iterates the second chain's segments against the first chain; no MTV. -/
def collideChainChain (sa sb : List Seg) (clr : Int) (wA wL wM : Bool) : CollResult :=
  let lp := iterSegLoop (fun s => chainCollideSeg sa s clr (wA || wL) wL) wA sb intMax V2.zero
  if lp.1 < clr then
    { hit := true
      actual := if wA then some lp.1 else none
      location := if wL then some lp.2 else none
      mtv := none }
  else noColl

/-- `Collide(SHAPE_RECT, SHAPE_LINE_CHAIN_BASE)` (lines 284–335): closed
chains containing the rectangle center collide at distance 0; otherwise the
rect is tested against each chain segment; no MTV. -/
def collideRectChain (A : RECT) (B : LineChain) (clr : Int) (wA wL wM : Bool) : CollResult :=
  if B.closed && pointInsideChain B (A.p0 + A.size.half) then
    { hit := true
      actual := if wA then some 0 else none
      location := if wL then some (A.p0 + A.size.half) else none
      mtv := none }
  else
    let lp := iterSegLoop (fun s => rectCollideSeg A s clr (wA || wL) wL) wA (segsOf B)
      intMax V2.zero
    if lp.1 < clr then
      { hit := true
        actual := if wA then some lp.1 else none
        location := if wL then some lp.2 else none
        mtv := none }
    else noColl

/-- `Collide(SHAPE_RECT, SHAPE_SEGMENT)` (lines 338–352): half the stadium
width inflates the clearance, then is subtracted back out of the reported
actual; no MTV. -/
def collideRectSeg (A : RECT) (B : SEGMENT) (clr : Int) (wA wL wM : Bool) : CollResult :=
  if (rectCollideSeg A B.seg (clr + Int.tdiv B.width 2) wA wL).hit then
    { hit := true
      actual := if wA then
          some (max 0 ((rectCollideSeg A B.seg (clr + Int.tdiv B.width 2) wA wL).actual.getD 0 -
            Int.tdiv B.width 2))
        else none
      location := (rectCollideSeg A B.seg (clr + Int.tdiv B.width 2) wA wL).location
      mtv := none }
  else noColl

/-- `Collide(SHAPE_SEGMENT, SHAPE_SEGMENT)` (lines 355–369). -/
def collideSegSeg (A B : SEGMENT) (clr : Int) (wA wL wM : Bool) : CollResult :=
  if (segShapeCollideSeg A B.seg (clr + Int.tdiv B.width 2) wA wL).hit then
    { hit := true
      actual := if wA then
          some (max 0 ((segShapeCollideSeg A B.seg (clr + Int.tdiv B.width 2) wA wL).actual.getD 0 -
            Int.tdiv B.width 2))
        else none
      location := (segShapeCollideSeg A B.seg (clr + Int.tdiv B.width 2) wA wL).location
      mtv := none }
  else noColl

/-- `Collide(SHAPE_LINE_CHAIN_BASE, SHAPE_SEGMENT)` (lines 372–386). -/
def collideChainSeg (segs : List Seg) (B : SEGMENT) (clr : Int) (wA wL wM : Bool) : CollResult :=
  if (chainCollideSeg segs B.seg (clr + Int.tdiv B.width 2) wA wL).hit then
    { hit := true
      actual := if wA then
          some (max 0 ((chainCollideSeg segs B.seg (clr + Int.tdiv B.width 2) wA wL).actual.getD 0 -
            Int.tdiv B.width 2))
        else none
      location := (chainCollideSeg segs B.seg (clr + Int.tdiv B.width 2) wA wL).location
      mtv := none }
  else noColl

/-- `Collide(SHAPE_CIRCLE, SHAPE_SEGMENT)` (lines 225–237): half the stadium
width inflates the clearance; the member's reported actual is passed through
unchanged; MTV is the negated pushout force. -/
def collideCircleSeg (A : CIRCLE) (B : SEGMENT) (clr : Int) (wA wL wM : Bool) : CollResult :=
  if (circleCollideSeg A B.seg (clr + Int.tdiv B.width 2) wA wL).hit then
    { hit := true
      actual := (circleCollideSeg A B.seg (clr + Int.tdiv B.width 2) wA wL).actual
      location := (circleCollideSeg A B.seg (clr + Int.tdiv B.width 2) wA wL).location
      mtv := if wM then some (-(pushoutForce A B.seg (clr + Int.tdiv B.width 2))) else none }
  else noColl

/-- `SHAPE_RECT::Outline()`: the rectangle's 4-point closed chain. -/
def RECT.outline (A : RECT) : LineChain := ⟨rectVts A, true⟩

/-- `Collide(SHAPE_RECT, SHAPE_RECT)` (lines 389–393): delegates to
chain-vs-chain collision of the two closed outlines. -/
def collideRectRect (A B : RECT) (clr : Int) (wA wL wM : Bool) : CollResult :=
  collideChainChain (segsOf A.outline) (segsOf B.outline) clr wA wL wM

/-! ## The shape union and the dispatcher (`collideSingleShapes`,
`collideShapes`) -/

/-- The closed shape union dispatched over by `collideSingleShapes`.
The arc constructor carries its polyline conversion directly (modelled from
the spec: all arc collisions delegate to the line-chain routines after
`ConvertToPolyline()`, whose fixed-tolerance trigonometric construction is
outside this core). -/
inductive Shape where
  | rect (r : RECT)
  | circle (c : CIRCLE)
  | chain (ch : LineChain)
  | seg (s : SEGMENT)
  | simple (ch : LineChain)
  | arc (poly : LineChain)
  | nullS
  | compound (shapes : List Shape)

/-- `SH_COMPOUND` tag test. -/
def Shape.isCompound : Shape → Bool
  | .compound _ => true
  | _ => false

/-- `SH_NULL` tag test. -/
def Shape.isNull : Shape → Bool
  | .nullS => true
  | _ => false

/-- The tail of `CollCaseReversed` (lines 453–464): on a hit with MTV
requested, the returned MTV is negated; actual and location pass through
unchanged.  The same pattern implements line 408–409 of the arc–circle
adapter. -/
def mtvReversed (r : CollResult) : CollResult :=
  if r.hit then { r with mtv := r.mtv.map Neg.neg } else r

/-- `Collide(SHAPE_ARC, SHAPE_RECT)` (lines 395–400). -/
def collideArcRect (poly : LineChain) (B : RECT) (clr : Int) (wA wL wM : Bool) : CollResult :=
  collideChainChain (segsOf poly) (segsOf B.outline) clr wA wL wM

/-- `Collide(SHAPE_ARC, SHAPE_CIRCLE)` (lines 402–412). -/
def collideArcCircle (poly : LineChain) (B : CIRCLE) (clr : Int) (wA wL wM : Bool) : CollResult :=
  mtvReversed (collideCircleChain B (segsOf poly) clr wA wL wM)

/-- `Collide(SHAPE_ARC, SHAPE_LINE_CHAIN)` / `(SHAPE_ARC,
SHAPE_LINE_CHAIN_BASE)` (lines 414–419 and 428–434). -/
def collideArcChain (poly : LineChain) (B : LineChain) (clr : Int) (wA wL wM : Bool) :
    CollResult :=
  collideChainChain (segsOf poly) (segsOf B) clr wA wL wM

/-- `Collide(SHAPE_ARC, SHAPE_SEGMENT)` (lines 421–426). -/
def collideArcSeg (poly : LineChain) (B : SEGMENT) (clr : Int) (wA wL wM : Bool) : CollResult :=
  collideChainSeg (segsOf poly) B clr wA wL wM

/-- `Collide(SHAPE_ARC, SHAPE_ARC)` (lines 436–442). -/
def collideArcArc (pa pb : LineChain) (clr : Int) (wA wL wM : Bool) : CollResult :=
  collideChainChain (segsOf pa) (segsOf pb) clr wA wL wM

/-- `collideSingleShapes` (lines 467–666): the double type-tag dispatch,
routing each concrete pair to its implemented routine, through
`CollCaseReversed` (MTV negation) where the implemented argument order is
flipped.  The second component models whether the fall-through
`wxASSERT( unsupported_collision == false )` was reached. -/
def collideSingleShapes (A B : Shape) (clr : Int) (wA wL wM : Bool) : CollResult × Bool :=
  match A, B with
  | .nullS, _ => (noColl, false)
  | .rect a, .rect b => (collideRectRect a b clr wA wL wM, false)
  | .rect a, .circle b => (collideRC a b clr wA wL wM, false)
  | .rect a, .chain b => (collideRectChain a b clr wA wL wM, false)
  | .rect a, .seg b => (collideRectSeg a b clr wA wL wM, false)
  | .rect a, .simple b => (collideRectChain a b clr wA wL wM, false)
  | .rect a, .arc b => (mtvReversed (collideArcRect b a clr wA wL wM), false)
  | .rect _, .nullS => (noColl, false)
  | .circle a, .rect b => (mtvReversed (collideRC b a clr wA wL wM), false)
  | .circle a, .circle b => (collideCC a b clr wA wL wM, false)
  | .circle a, .chain b => (collideCircleChain a (segsOf b) clr wA wL wM, false)
  | .circle a, .seg b => (collideCircleSeg a b clr wA wL wM, false)
  | .circle a, .simple b => (collideCircleChain a (segsOf b) clr wA wL wM, false)
  | .circle a, .arc b => (mtvReversed (collideArcCircle b a clr wA wL wM), false)
  | .circle _, .nullS => (noColl, false)
  | .chain a, .rect b => (collideRectChain b a clr wA wL wM, false)
  | .chain a, .circle b => (collideCircleChain b (segsOf a) clr wA wL wM, false)
  | .chain a, .chain b => (collideChainChain (segsOf a) (segsOf b) clr wA wL wM, false)
  | .chain a, .seg b => (collideChainSeg (segsOf a) b clr wA wL wM, false)
  | .chain a, .simple b => (collideChainChain (segsOf a) (segsOf b) clr wA wL wM, false)
  | .chain a, .arc b => (mtvReversed (collideArcChain b a clr wA wL wM), false)
  | .chain _, .nullS => (noColl, false)
  | .seg a, .rect b => (collideRectSeg b a clr wA wL wM, false)
  | .seg a, .circle b => (mtvReversed (collideCircleSeg b a clr wA wL wM), false)
  | .seg a, .chain b => (collideChainSeg (segsOf b) a clr wA wL wM, false)
  | .seg a, .seg b => (collideSegSeg a b clr wA wL wM, false)
  | .seg a, .simple b => (collideChainSeg (segsOf b) a clr wA wL wM, false)
  | .seg a, .arc b => (mtvReversed (collideArcSeg b a clr wA wL wM), false)
  | .seg _, .nullS => (noColl, false)
  | .simple a, .rect b => (collideRectChain b a clr wA wL wM, false)
  | .simple a, .circle b => (collideCircleChain b (segsOf a) clr wA wL wM, false)
  | .simple a, .chain b => (collideChainChain (segsOf b) (segsOf a) clr wA wL wM, false)
  | .simple a, .seg b => (collideChainSeg (segsOf a) b clr wA wL wM, false)
  | .simple a, .simple b => (collideChainChain (segsOf a) (segsOf b) clr wA wL wM, false)
  | .simple a, .arc b => (mtvReversed (collideArcChain b a clr wA wL wM), false)
  | .simple _, .nullS => (noColl, false)
  | .arc a, .rect b => (collideArcRect a b clr wA wL wM, false)
  | .arc a, .circle b => (collideArcCircle a b clr wA wL wM, false)
  | .arc a, .chain b => (collideArcChain a b clr wA wL wM, false)
  | .arc a, .seg b => (collideArcSeg a b clr wA wL wM, false)
  | .arc a, .simple b => (collideArcChain a b clr wA wL wM, false)
  | .arc a, .arc b => (collideArcArc a b clr wA wL wM, false)
  | .arc _, .nullS => (noColl, false)
  | _, .compound _ => (noColl, true)
  | .compound _, _ => (noColl, true)

/-- The aggregation state of `collideShapes` (lines 671–674). -/
structure AggState where
  currentActual : Int
  currentLocation : V2
  currentMTV : V2
  colliding : Bool
deriving DecidableEq, Repr

/-- The `canExit` lambda (lines 676–689). -/
def canExit (wA wM : Bool) (st : AggState) : Bool :=
  st.colliding && !(wA && decide (0 < st.currentActual)) && !wM

/-- The `collideCompoundSubshapes` lambda (lines 691–718): collides one
sub-shape pair (requesting actual whenever actual or location is wanted),
folds the minimum actual with its location, and keeps the
largest-magnitude MTV.  Returns the new state, whether this pair hit, and
whether the unsupported-pair assertion fired. -/
def stepPair (clr : Int) (wA wL wM : Bool) (st : AggState) (p : Shape × Shape) :
    AggState × Bool × Bool :=
  let r := collideSingleShapes p.1 p.2 clr (wA || wL) wL wM
  if r.1.hit then
    let st1 := if r.1.actual.getD 0 < st.currentActual then
        { st with currentActual := r.1.actual.getD 0,
                  currentLocation := r.1.location.getD V2.zero }
      else st
    let st2 := if wM && decide (sqNorm st1.currentMTV < sqNorm (r.1.mtv.getD V2.zero)) then
        { st1 with currentMTV := r.1.mtv.getD V2.zero }
      else st1
    ({ st2 with colliding := true }, true, r.2)
  else (st, false, r.2)

/-- The compound iteration of `collideShapes` (lines 720–771), flattened
over the sub-shape pair list: after every colliding pair the loop exits
early when `canExit` holds. -/
def aggLoop (clr : Int) (wA wL wM : Bool) :
    List (Shape × Shape) → AggState → Bool → AggState × Bool
  | [], st, af => (st, af)
  | p :: rest, st, af =>
    let sr := stepPair clr wA wL wM st p
    if sr.2.1 && canExit wA wM sr.1 then (sr.1, af || sr.2.2)
    else aggLoop clr wA wL wM rest sr.1 (af || sr.2.2)

/-- The sub-shape pair cross product dispatched by `collideShapes`: both
compound, compound–single, single–compound, or the single pair itself. -/
def subPairs (A B : Shape) : List (Shape × Shape) :=
  match A, B with
  | .compound la, .compound lb => la.flatMap (fun a => lb.map (fun b => (a, b)))
  | .compound la, b => la.map (fun a => (a, b))
  | a, .compound lb => lb.map (fun b => (a, b))
  | a, b => [(a, b)]

/-- `collideShapes` (lines 668–790): non-compound pairs go straight to
`collideSingleShapes`; compound operands are expanded over `subPairs` and
aggregated, with the output slots written only when some pair collided. -/
def collideShapes (A B : Shape) (clr : Int) (wA wL wM : Bool) : CollResult × Bool :=
  if A.isCompound || B.isCompound then
    let lp := aggLoop clr wA wL wM (subPairs A B) ⟨intMax, V2.zero, V2.zero, false⟩ false
    (if lp.1.colliding then
       { hit := true
         actual := if wA then some lp.1.currentActual else none
         location := if wL then some lp.1.currentLocation else none
         mtv := if wM then some lp.1.currentMTV else none }
     else noColl, lp.2)
  else collideSingleShapes A B clr wA wL wM

/-! ## Polygon geometry manager (`polygon_geom_manager.cpp`) -/

/-- `POLYGON_GEOM_MANAGER::LEADER_MODE`. -/
inductive LeaderMode where
  | direct
  | deg45
deriving DecidableEq, Repr

/-- Client notifications fired by the manager; the client callback interface
is modelled as the recorded event list of each operation. -/
inductive PolyEvent where
  | geometryChange
  | complete
deriving DecidableEq, Repr

/-- The manager's mutable state: locked polygon vertices, the transient
leader point sequence, the leader mode and the self-intersection switch. -/
structure PolyMgr where
  lockedPoints : List V2
  leaderPts : List V2
  leaderMode : LeaderMode
  intersectionsAllowed : Bool
deriving DecidableEq, Repr

/-- `GetVectorSnapped45`.
Modelled from the spec: restricts a vector to the nearest horizontal,
vertical or 45-degree diagonal direction (H/V when one component dominates
the other by more than a factor of two, diagonal of matched magnitudes
otherwise). -/
def snap45 (v : V2) : V2 :=
  if (v.y.natAbs : Int) * 2 < (v.x.natAbs : Int) then ⟨v.x, 0⟩
  else if (v.x.natAbs : Int) * 2 < (v.y.natAbs : Int) then ⟨0, v.y⟩
  else
    ⟨Int.sign v.x * max v.x.natAbs v.y.natAbs, Int.sign v.y * max v.x.natAbs v.y.natAbs⟩

/-- `VECTOR2I::Rotate(M_PI_4)`.
Modelled from the spec: rotation of an integer vector by 45 degrees with
rounding to integer coordinates (`1/sqrt 2` approximated by the rational
convergent `13860/19601`). -/
def rot45 (v : V2) : V2 :=
  ⟨roundScale (v.x - v.y) 13860 19601, roundScale (v.x + v.y) 13860 19601⟩

/-- `SEG::IntersectLines`.
Modelled from the spec: intersection of the two carrier lines (parallel
lines yield none), rounded to integer coordinates. -/
def intersectLines (s t : Seg) : Option V2 :=
  let e := s.b - s.a
  let f := t.b - t.a
  let d := crossV f e
  if d = 0 then none
  else
    let p := crossV f (t.a - s.a)
    some (s.a + ⟨roundScale p e.x d, roundScale p e.y d⟩)

/-- `SEG::Collinear`.
Modelled from the spec: the two segments lie on one carrier line (parallel
directions and a common point on the line). -/
def collinearSegs (s t : Seg) : Bool :=
  decide (crossV (s.b - s.a) (t.b - t.a) = 0) &&
    decide (crossV (s.b - s.a) (t.a - s.a) = 0)

/-- `SHAPE_LINE_CHAIN::SelfIntersecting` on the closed locked-point chain.
Modelled from the spec: some pair of non-adjacent edges of the closed chain
crosses (or an edge passes through a non-adjacent vertex); adjacency wraps
around through the closing edge. -/
def selfIntersectingClosed (pts : List V2) : Bool :=
  let segs := segsOf ⟨pts, true⟩
  (List.range segs.length).any (fun i =>
    (List.range segs.length).any (fun j =>
      decide (i + 1 < j) && !(i == 0 && j == segs.length - 1) &&
        segsCross (segs.getD i ⟨V2.zero, V2.zero⟩) (segs.getD j ⟨V2.zero, V2.zero⟩)))

/-- The 45-degree bend search of `updateLeaderPoints` (lines 157–179):
starting from the first locked edge, rotate its endpoint seven times by 45
degrees and keep the carrier-line intersection closest to the cursor. -/
def bendSearch (first : Seg) (endPoint : V2) : Nat → Seg → Option V2 → Int → Option V2
  | 0, _, pt, _ => pt
  | fuel+1, testSeg, pt, dist =>
    match intersectLines first ⟨testSeg.a, rot45 (testSeg.b - testSeg.a) + testSeg.a⟩ with
    | none => bendSearch first endPoint fuel
        ⟨testSeg.a, rot45 (testSeg.b - testSeg.a) + testSeg.a⟩ pt dist
    | some p2 =>
      if eNorm (endPoint - p2) < dist then
        bendSearch first endPoint fuel
          ⟨testSeg.a, rot45 (testSeg.b - testSeg.a) + testSeg.a⟩ (some p2)
          (eNorm (endPoint - p2))
      else bendSearch first endPoint fuel
        ⟨testSeg.a, rot45 (testSeg.b - testSeg.a) + testSeg.a⟩ pt dist

/-- The candidate bend point for the 45-degree constrained leader
(lines 157–179): intersection search against the first locked edge and its
seven 45-degree rotations, `none` when the locked chain has no segment. -/
def leader45Bend (locked : List V2) (lastPt newEnd endPoint : V2) : Option V2 :=
  match locked with
  | p0 :: p1 :: _ =>
    match intersectLines ⟨lastPt, newEnd⟩ ⟨p0, p1⟩ with
    | some p => bendSearch ⟨lastPt, newEnd⟩ endPoint 7 ⟨p0, p1⟩ (some p)
        (eNorm (endPoint - p))
    | none => bendSearch ⟨lastPt, newEnd⟩ endPoint 7 ⟨p0, p1⟩ none intMax
  | _ => none

/-- The new leader point sequence computed by `updateLeaderPoints`
(lines 150–196) from the locked points, the mode, the modifier and the
cursor position. -/
def computeLeader (locked : List V2) (mode modifier : LeaderMode) (endPoint lastPt : V2) :
    List V2 :=
  if mode = .deg45 ∨ modifier = .deg45 then
    let newEnd := lastPt + snap45 (endPoint - lastPt)
    match leader45Bend locked lastPt newEnd endPoint with
    | none => [lastPt, newEnd]
    | some p =>
      if collinearSegs ⟨lastPt, newEnd⟩ ⟨newEnd, p⟩ then [lastPt, p]
      else [lastPt, newEnd, p]
  else [lastPt, endPoint]

/-- `POLYGON_GEOM_MANAGER::updateLeaderPoints` (lines 145–199): guarded by
`wxCHECK` on a nonempty locked sequence (silent return, no notification);
otherwise replaces the leader with the recomputed sequence and notifies a
geometry change. -/
def updateLeaderPoints (st : PolyMgr) (endPoint : V2) (modifier : LeaderMode) :
    PolyMgr × List PolyEvent :=
  match st.lockedPoints.getLast? with
  | none => (st, [])
  | some lastPt =>
    ({ st with leaderPts := computeLeader st.lockedPoints st.leaderMode modifier endPoint lastPt },
     [.geometryChange])

/-- `POLYGON_GEOM_MANAGER::SetCursorPosition` (lines 100–103). -/
def setCursorPosition (st : PolyMgr) (pos : V2) : PolyMgr × List PolyEvent :=
  updateLeaderPoints st pos .direct

/-- `POLYGON_GEOM_MANAGER::AddPoint` (lines 37–66).  The external client's
`OnFirstPoint` answer is the `ok` argument; returns the new state, the
success flag, and the notifications fired. -/
def addPoint (st : PolyMgr) (ok : Bool) (pt : V2) : PolyMgr × Bool × List PolyEvent :=
  if st.lockedPoints.isEmpty && !ok then (st, false, [])
  else
    let candidate := if 1 < st.leaderPts.length then st.leaderPts.getD 1 V2.zero else pt
    if !st.intersectionsAllowed && selfIntersectingClosed (st.lockedPoints ++ [candidate]) then
      ({ st with lockedPoints := (st.lockedPoints ++ [candidate]).dropLast }, false, [])
    else ({ st with lockedPoints := st.lockedPoints ++ [candidate] }, true, [.geometryChange])

/-- `POLYGON_GEOM_MANAGER::NewPointClosesOutline` (lines 112–115). -/
def newPointClosesOutline (st : PolyMgr) (pt : V2) : Bool :=
  match st.lockedPoints.head? with
  | some p0 => p0 == pt
  | none => false

/-! ## Claim theorems -/

/-- C1: the pairwise Collide contract demands `true` iff the minimum
distance is strictly below the clearance (plus inherent thickness).  The
rect–circle routine violates this for pure boolean queries: its side loop
breaks after the first side whenever neither actual nor MTV is requested
(contradicting its own comment "short-circuit once we find any collision"),
so a circle overlapping only the right side is reported as not colliding,
while the same query with actual requested reports a hit at distance 1.
The spec's exact-boundary example (distance exactly 9 at clearance 9) is
exclusive as claimed. -/
theorem rectCircleShortCircuitBug :
    (collideRC ⟨⟨0,0⟩,⟨10,10⟩⟩ ⟨⟨12,5⟩,1⟩ 2 false false false).hit = false ∧
    (collideRC ⟨⟨0,0⟩,⟨10,10⟩⟩ ⟨⟨12,5⟩,1⟩ 2 true false false).hit = true ∧
    (collideRC ⟨⟨0,0⟩,⟨10,10⟩⟩ ⟨⟨12,5⟩,1⟩ 2 true false false).actual = some 1 ∧
    (collideRC ⟨⟨0,0⟩,⟨10,10⟩⟩ ⟨⟨20,5⟩,1⟩ 9 true false false).hit = false ∧
    (collideRC ⟨⟨0,0⟩,⟨10,10⟩⟩ ⟨⟨20,5⟩,1⟩ 9 false false false).hit = false := by
  decide

/-- C5 (counterexample): rect [0,0,10,10] vs circle center (5,5) radius 1
does collide, but the reported actual distance is
`max(0, dist(center, nearest side) - r) = 4`, not the claimed 0. -/
theorem rectCircleInsideActualNotZero :
    (collideRC ⟨⟨0,0⟩,⟨10,10⟩⟩ ⟨⟨5,5⟩,1⟩ 0 true true false).hit = true ∧
    (collideRC ⟨⟨0,0⟩,⟨10,10⟩⟩ ⟨⟨5,5⟩,1⟩ 0 true true false).actual = some 4 ∧
    ((4:Int) ≠ 0) := by
  decide

/-- C5 (amended): whenever the circle center lies inside the rectangle
(boundary inclusive) the rect–circle routine returns true, for every
clearance (even negative) and every combination of requested output slots;
the reported actual distance, however, is the clamped distance from the
center to the nearest side minus the radius (4 in the spec's example), not
zero. -/
theorem rectCircleInsideHit (A : RECT) (B : CIRCLE) (clr : Int) (wA wL wM : Bool)
    (h : ptInRect A B.c = true) :
    (collideRC A B clr wA wL wM).hit = true := by
  unfold collideRC
  split
  · rfl
  · dsimp only
    rw [if_pos (Or.inl h)]

/-- Witness for the C5 amended theorem: a circle centered inside the
rectangle collides even at a negative clearance. -/
theorem rectCircleInsideHit_witness :
    ptInRect ⟨⟨0,0⟩,⟨10,10⟩⟩ (⟨⟨5,5⟩,1⟩ : CIRCLE).c = true ∧
    (collideRC ⟨⟨0,0⟩,⟨10,10⟩⟩ ⟨⟨5,5⟩,1⟩ (-7) true false true).hit = true :=
  ⟨by decide, rectCircleInsideHit ⟨⟨0,0⟩,⟨10,10⟩⟩ ⟨⟨5,5⟩,1⟩ (-7) true false true (by decide)⟩

/-- C6: the circle–segment adapter adds half the stadium width to the
clearance but, unlike its rect–segment, segment–segment and chain–segment
siblings, never subtracts it back out of the reported actual distance.
Circle r=5 at the origin vs a width-4 segment at x=10, clearance 4: the
geometric gap is 10-5-2 = 3 < 4 (a hit), but the routine reports actual 5
(exceeding the clearance); the segment–segment sibling on the analogous
configuration subtracts the half width as the claim demands. -/
theorem circleSegmentActualMissingHalfWidth :
    (collideCircleSeg ⟨⟨0,0⟩,5⟩ ⟨⟨⟨10,-10⟩,⟨10,10⟩⟩,4⟩ 4 true false false).hit = true ∧
    (collideCircleSeg ⟨⟨0,0⟩,5⟩ ⟨⟨⟨10,-10⟩,⟨10,10⟩⟩,4⟩ 4 true false false).actual = some 5 ∧
    max 0 (10 - 5 - Int.tdiv 4 2) = (3:Int) ∧ ((5:Int) ≠ 3) ∧
    (collideSegSeg ⟨⟨⟨0,-10⟩,⟨0,10⟩⟩,0⟩ ⟨⟨⟨10,-10⟩,⟨10,10⟩⟩,4⟩ 9 true false false).actual
      = some 8 := by
  decide

/-- C3 (counterexample): on the spec's own two-circle example (radius 5 at
(0,0) and (8,0), clearance 0) the returned MTV is (5,0), pointing from A
toward B; translating A by it leaves the circles colliding, contradicting
the claim that the MTV points away from B and removes the violation when
applied to A. -/
theorem circleCircleMTVTranslateAStillCollides :
    (collideCC ⟨⟨0,0⟩,5⟩ ⟨⟨8,0⟩,5⟩ 0 false false true).hit = true ∧
    (collideCC ⟨⟨0,0⟩,5⟩ ⟨⟨8,0⟩,5⟩ 0 false false true).mtv = some ⟨5,0⟩ ∧
    (collideCC ⟨⟨5,0⟩,5⟩ ⟨⟨8,0⟩,5⟩ 0 false false false).hit = true := by
  decide

/-- C3 (amended): the circle–circle MTV points from A toward B (its dot
product with the center delta B − A is nonnegative whenever the clearance
and radii are nonnegative), so it is to be applied to B — translating B by
the MTV removes the clearance violation, as in the spec's own example where
B moved by (5,0) to (13,0) no longer collides. -/
theorem circleCircleMTVTowardB (A B : CIRCLE) (clr : Int) (wA wL : Bool) (m : V2)
    (hclr : 0 ≤ clr) (hrA : 0 ≤ A.r) (hrB : 0 ≤ B.r)
    (h : (collideCC A B clr wA wL true).mtv = some m) :
    0 ≤ dotV m (B.c - A.c) := by
  unfold collideCC at h
  by_cases hlt : sqNorm (B.c - A.c) < (clr + A.r + B.r) * (clr + A.r + B.r)
  · rw [if_pos hlt] at h
    dsimp only at h
    rw [if_pos (rfl : (true : Bool) = true)] at h
    have hm := Option.some.inj h
    subst hm
    by_cases hd : B.c - A.c = V2.zero
    · rw [hd]
      simp [resizeV, dotV, V2.zero]
    · rw [resizeV, if_neg hd]
      have hc : (0:Int) ≤ clr + A.r + B.r := by omega
      have hceil := ceilSqrtI_le (sqNorm_nonneg (B.c - A.c)) hc hlt
      have hL : ¬(clr + A.r + B.r + 3 - ceilSqrtI (sqNorm (B.c - A.c)) < 0) := by omega
      rw [if_neg hL]
      unfold dotV
      dsimp only
      have h1 := roundSqrt_nonneg (roundScale
        ((clr + A.r + B.r + 3 - ceilSqrtI (sqNorm (B.c - A.c))) *
          (clr + A.r + B.r + 3 - ceilSqrtI (sqNorm (B.c - A.c))))
        ((B.c - A.c).x * (B.c - A.c).x) (sqNorm (B.c - A.c)))
      have h2 := roundSqrt_nonneg (roundScale
        ((clr + A.r + B.r + 3 - ceilSqrtI (sqNorm (B.c - A.c))) *
          (clr + A.r + B.r + 3 - ceilSqrtI (sqNorm (B.c - A.c))))
        ((B.c - A.c).y * (B.c - A.c).y) (sqNorm (B.c - A.c)))
      rcases lt_or_le (B.c - A.c).x 0 with hx | hx <;>
        rcases lt_or_le (B.c - A.c).y 0 with hy | hy
      · rw [if_pos hx, if_pos hy]; nlinarith
      · rw [if_pos hx, if_neg (not_lt.mpr hy)]; nlinarith
      · rw [if_neg (not_lt.mpr hx), if_pos hy]; nlinarith
      · rw [if_neg (not_lt.mpr hx), if_neg (not_lt.mpr hy)]; nlinarith
  · rw [if_neg hlt] at h
    simp [noColl] at h

/-- Witness for `circleCircleMTVTowardB` on the spec's §8 example (radius-5
circles at (0,0) and (8,0), clearance 0): the MTV is (5,0), its dot product
with B − A is nonnegative, and translating B by it to (13,0) separates the
circles. -/
theorem circleCircleMTVTowardB_witness :
    (0:Int) ≤ 0 ∧ (0:Int) ≤ 5 ∧
    (collideCC ⟨⟨0,0⟩,5⟩ ⟨⟨8,0⟩,5⟩ 0 false false true).mtv = some ⟨5,0⟩ ∧
    0 ≤ dotV ⟨5,0⟩ ((⟨8,0⟩:V2) - (⟨0,0⟩:V2)) ∧
    (collideCC ⟨⟨0,0⟩,5⟩ ⟨⟨13,0⟩,5⟩ 0 false false false).hit = false :=
  ⟨by decide, by decide, by decide,
    circleCircleMTVTowardB ⟨⟨0,0⟩,5⟩ ⟨⟨8,0⟩,5⟩ 0 false false ⟨5,0⟩
      (by decide) (by decide) (by decide) (by decide),
    by decide⟩

/-- C8 (counterexample): with one locked point and a one-segment leader
(0,0)–(10,0) — not more than one segment — AddPoint(7,3) locks the
leader's second point (10,0), not the raw cursor point (7,3) that the claim
says is appended directly in this case. -/
theorem addPointLocksLeaderPointNotCursor :
    (addPoint ⟨[⟨0,0⟩], [⟨0,0⟩,⟨10,0⟩], .direct, true⟩ true ⟨7,3⟩).2.1 = true ∧
    (addPoint ⟨[⟨0,0⟩], [⟨0,0⟩,⟨10,0⟩], .direct, true⟩ true ⟨7,3⟩).1.lockedPoints
      = [⟨0,0⟩, ⟨10,0⟩] ∧
    ([(⟨0,0⟩:V2), ⟨10,0⟩] ≠ [⟨0,0⟩, ⟨7,3⟩]) := by
  decide

/-- C8 (amended): on every successful AddPoint the locked point is the
leader's second point (the end of the first leader segment — the bend point
when the 45-degree leader bent) whenever the leader has at least one
segment, i.e. two or more points; the raw cursor point is appended directly
only when the leader is empty or a single point. -/
theorem addPointLockChoice (st : PolyMgr) (ok : Bool) (pt : V2)
    (h : (addPoint st ok pt).2.1 = true) :
    (addPoint st ok pt).1.lockedPoints =
      st.lockedPoints ++
        [if 1 < st.leaderPts.length then st.leaderPts.getD 1 V2.zero else pt] := by
  unfold addPoint at h ⊢
  dsimp only at h ⊢
  split_ifs at h ⊢
  all_goals first | rfl | simp at h

/-- Witness for the C8 amended theorem at the counterexample state. -/
theorem addPointLockChoice_witness :
    (addPoint ⟨[⟨0,0⟩], [⟨0,0⟩,⟨10,0⟩], .direct, true⟩ true ⟨5,5⟩).2.1 = true ∧
    (addPoint ⟨[⟨0,0⟩], [⟨0,0⟩,⟨10,0⟩], .direct, true⟩ true ⟨5,5⟩).1.lockedPoints =
      [⟨0,0⟩] ++
        [if 1 < ([⟨0,0⟩,⟨10,0⟩] : List V2).length then
           ([⟨0,0⟩,⟨10,0⟩] : List V2).getD 1 V2.zero
         else ⟨5,5⟩] :=
  ⟨by decide, addPointLockChoice ⟨[⟨0,0⟩], [⟨0,0⟩,⟨10,0⟩], .direct, true⟩ true ⟨5,5⟩ (by decide)⟩

/-- C7: AddPoint is atomic on rejection.  A veto of the first point on an
empty manager returns failure; every failure leaves the whole state (in
particular the locked-point sequence) exactly as it was and fires no
notification; every success appends exactly one locked point, fires exactly
one OnGeometryChange, and returns true. -/
theorem addPointAtomic (st : PolyMgr) (ok : Bool) (pt : V2) :
    (st.lockedPoints = [] → ok = false → (addPoint st ok pt).2.1 = false) ∧
    ((addPoint st ok pt).2.1 = false →
      (addPoint st ok pt).1 = st ∧ (addPoint st ok pt).2.2 = []) ∧
    ((addPoint st ok pt).2.1 = true →
      (∃ q, (addPoint st ok pt).1.lockedPoints = st.lockedPoints ++ [q]) ∧
        (addPoint st ok pt).2.2 = [PolyEvent.geometryChange]) := by
  refine ⟨?_, ?_, ?_⟩
  · intro h1 h2
    unfold addPoint
    rw [if_pos (by rw [h1, h2]; rfl)]
  · intro h
    unfold addPoint at h ⊢
    dsimp only at h ⊢
    split_ifs at h ⊢ <;>
      first
        | exact ⟨rfl, rfl⟩
        | exact ⟨by rw [List.dropLast_concat], rfl⟩
        | simp at h
  · intro h
    unfold addPoint at h ⊢
    dsimp only at h ⊢
    split_ifs at h ⊢ <;>
      first
        | exact ⟨⟨_, rfl⟩, rfl⟩
        | simp at h

/-- Witness for the C7 theorem: the self-intersection rejection on the
bowtie chain leaves the state untouched and silent. -/
theorem addPointAtomic_witness :
    (addPoint ⟨[⟨0,0⟩,⟨10,10⟩,⟨10,0⟩], [], .direct, false⟩ true ⟨0,10⟩).2.1 = false ∧
    (addPoint ⟨[⟨0,0⟩,⟨10,10⟩,⟨10,0⟩], [], .direct, false⟩ true ⟨0,10⟩).1 =
      ⟨[⟨0,0⟩,⟨10,10⟩,⟨10,0⟩], [], .direct, false⟩ ∧
    (addPoint ⟨[⟨0,0⟩,⟨10,10⟩,⟨10,0⟩], [], .direct, false⟩ true ⟨0,10⟩).2.2 = [] :=
  ⟨by decide,
   ((addPointAtomic ⟨[⟨0,0⟩,⟨10,10⟩,⟨10,0⟩], [], .direct, false⟩ true ⟨0,10⟩).2.1
      (by decide)).1,
   ((addPointAtomic ⟨[⟨0,0⟩,⟨10,10⟩,⟨10,0⟩], [], .direct, false⟩ true ⟨0,10⟩).2.1
      (by decide)).2⟩

/-- C9: SetCursorPosition is idempotent on the leader geometry: with at
least one locked point, a repeated call with the same cursor position
recomputes exactly the same leader point sequence (the leader is a pure
function of the locked points, the leader mode and the cursor). -/
theorem setCursorPositionIdempotent (st : PolyMgr) (p : V2)
    (h : st.lockedPoints ≠ []) :
    (setCursorPosition (setCursorPosition st p).1 p).1.leaderPts =
      (setCursorPosition st p).1.leaderPts := by
  obtain ⟨lastPt, hl⟩ : ∃ q, st.lockedPoints.getLast? = some q := by
    cases hl2 : st.lockedPoints.getLast? with
    | none => exact absurd (List.getLast?_eq_none_iff.mp hl2) h
    | some q => exact ⟨q, rfl⟩
  unfold setCursorPosition updateLeaderPoints
  rw [hl]
  dsimp only
  rw [hl]

/-- Witness for the C9 theorem at a concrete manager state. -/
theorem setCursorPositionIdempotent_witness :
    (([⟨0,0⟩] : List V2) ≠ []) ∧
    (setCursorPosition (setCursorPosition ⟨[⟨0,0⟩], [], .deg45, true⟩ ⟨7,3⟩).1 ⟨7,3⟩).1.leaderPts
      = (setCursorPosition ⟨[⟨0,0⟩], [], .deg45, true⟩ ⟨7,3⟩).1.leaderPts :=
  ⟨by decide, setCursorPositionIdempotent ⟨[⟨0,0⟩], [], .deg45, true⟩ ⟨7,3⟩ (by decide)⟩

/-! ## C10: SH_NULL operands -/

theorem isNull_eq {A : Shape} (h : A.isNull = true) : A = .nullS := by
  cases A <;> first | rfl | simp [Shape.isNull] at h

theorem isCompound_eq {A : Shape} (h : A.isCompound = true) :
    ∃ l, A = .compound l := by
  cases A <;> first | exact ⟨_, rfl⟩ | simp [Shape.isCompound] at h

theorem single_null_left (B : Shape) (clr : Int) (wA wL wM : Bool) :
    collideSingleShapes .nullS B clr wA wL wM = (noColl, false) := by
  cases B <;> rfl

theorem single_null_right (A : Shape) (clr : Int) (wA wL wM : Bool) :
    collideSingleShapes A .nullS clr wA wL wM = (noColl, A.isCompound) := by
  cases A <;> rfl

theorem stepPair_no_hit {clr : Int} {wA wL wM : Bool} {st : AggState} {p : Shape × Shape}
    (h : (collideSingleShapes p.1 p.2 clr (wA || wL) wL wM).1.hit = false) :
    stepPair clr wA wL wM st p =
      (st, false, (collideSingleShapes p.1 p.2 clr (wA || wL) wL wM).2) := by
  unfold stepPair
  rw [if_neg (by rw [h]; exact Bool.false_ne_true)]

theorem aggLoop_no_hit (clr : Int) (wA wL wM : Bool) :
    ∀ (ps : List (Shape × Shape)) (st : AggState) (af : Bool),
    (∀ p ∈ ps, (collideSingleShapes p.1 p.2 clr (wA || wL) wL wM).1.hit = false) →
    aggLoop clr wA wL wM ps st af =
      (st, af || ps.any (fun p => (collideSingleShapes p.1 p.2 clr (wA || wL) wL wM).2)) := by
  intro ps
  induction ps with
  | nil => intro st af _; simp [aggLoop]
  | cons p rest ih =>
    intro st af hmiss
    unfold aggLoop
    rw [stepPair_no_hit (hmiss p (List.mem_cons_self ..))]
    dsimp only
    rw [ih st (af || (collideSingleShapes p.1 p.2 clr (wA || wL) wL wM).2)
      (fun q hq => hmiss q (List.mem_cons_of_mem _ hq))]
    simp [Bool.or_assoc]

/-- C10 (counterexample): a compound whose sub-shape is itself a compound,
collided against a SH_NULL operand, does reach the unsupported-collision
assertion (for the nested compound vs null sub-pair), while still
returning false. -/
theorem nullCompoundAssertFires :
    (collideShapes (.compound [.compound []]) .nullS 0 true true true).2 = true ∧
    (collideShapes (.compound [.compound []]) .nullS 0 true true true).1.hit = false := by
  decide

/-- C10 (amended): a collision query in which either operand is SH_NULL
returns false and writes none of the output slots, for every partner shape,
clearance and flag combination; the unsupported-collision assertion is not
reached, except that when the other operand is a compound containing a
nested compound sub-shape the assertion fires for that nested sub-pair
(independently of the null). -/
theorem nullShapeCollisionNoWrite (A B : Shape) (clr : Int) (wA wL wM : Bool)
    (h : A.isNull = true ∨ B.isNull = true) :
    (collideShapes A B clr wA wL wM).1 = noColl ∧
    ((collideShapes A B clr wA wL wM).2 = true →
      ∃ la, A = .compound la ∧ ∃ s ∈ la, s.isCompound = true) := by
  rcases h with h | h
  · rw [isNull_eq h]
    cases hB : B.isCompound with
    | false =>
      unfold collideShapes
      rw [if_neg (by rw [show Shape.nullS.isCompound = false from rfl, hB]; simp)]
      rw [single_null_left]
      exact ⟨rfl, fun h2 => by simp at h2⟩
    | true =>
      rcases isCompound_eq hB with ⟨lb, rfl⟩
      unfold collideShapes
      rw [if_pos (by rw [show (Shape.compound lb).isCompound = true from rfl]; simp)]
      dsimp only
      have hsub : subPairs Shape.nullS (.compound lb) = lb.map (fun b => (Shape.nullS, b)) := rfl
      rw [hsub, aggLoop_no_hit clr wA wL wM _ _ _ (by
        intro p hp
        rcases List.mem_map.mp hp with ⟨b, _, rfl⟩
        rw [single_null_left]
        rfl)]
      have hasserts : (lb.map (fun b => (Shape.nullS, b))).any
          (fun p => (collideSingleShapes p.1 p.2 clr (wA || wL) wL wM).2) = false := by
        rw [List.any_eq_false]
        intro p hp
        rcases List.mem_map.mp hp with ⟨b, _, rfl⟩
        show ¬((collideSingleShapes Shape.nullS b clr (wA || wL) wL wM).2 = true)
        rw [single_null_left]
        simp
      rw [hasserts]
      exact ⟨rfl, fun h2 => by simp at h2⟩
  · rw [isNull_eq h]
    cases hA : A.isCompound with
    | false =>
      unfold collideShapes
      rw [if_neg (by rw [show Shape.nullS.isCompound = false from rfl, hA]; simp)]
      rw [single_null_right]
      exact ⟨rfl, fun h2 => absurd (hA ▸ h2) (by simp)⟩
    | true =>
      rcases isCompound_eq hA with ⟨la, rfl⟩
      unfold collideShapes
      rw [if_pos (by rw [show (Shape.compound la).isCompound = true from rfl]; simp)]
      dsimp only
      have hsub : subPairs (.compound la) Shape.nullS = la.map (fun a => (a, Shape.nullS)) := rfl
      rw [hsub, aggLoop_no_hit clr wA wL wM _ _ _ (by
        intro p hp
        rcases List.mem_map.mp hp with ⟨a, _, rfl⟩
        rw [single_null_right]
        rfl)]
      refine ⟨rfl, ?_⟩
      intro h2
      refine ⟨la, rfl, ?_⟩
      simp only [Bool.false_or] at h2
      rcases List.any_eq_true.mp h2 with ⟨p, hp, hcomp⟩
      rcases List.mem_map.mp hp with ⟨a, ha, rfl⟩
      refine ⟨a, ha, ?_⟩
      rw [single_null_right] at hcomp
      exact hcomp

/-- Witness for the C10 amended theorem: null against a rectangle. -/
theorem nullShapeCollisionNoWrite_witness :
    ((Shape.nullS.isNull = true) ∨ ((Shape.rect ⟨⟨0,0⟩,⟨10,10⟩⟩).isNull = true)) ∧
    ((collideShapes .nullS (.rect ⟨⟨0,0⟩,⟨10,10⟩⟩) 5 true true true).1 = noColl ∧
      ((collideShapes .nullS (.rect ⟨⟨0,0⟩,⟨10,10⟩⟩) 5 true true true).2 = true →
        ∃ la, Shape.nullS = .compound la ∧ ∃ s ∈ la, s.isCompound = true)) :=
  ⟨Or.inl (by decide),
   nullShapeCollisionNoWrite .nullS (.rect ⟨⟨0,0⟩,⟨10,10⟩⟩) 5 true true true
     (Or.inl (by decide))⟩

/-! ## C4: compound aggregation -/

theorem optIf_getD_nonneg {w : Bool} {v : Int} (hv : 0 ≤ v) :
    0 ≤ (if w then some v else none).getD 0 := by
  cases w <;> simp [hv]

theorem noColl_actual_getD : (noColl.actual).getD 0 = 0 := rfl

theorem circleCollideSeg_actual_nonneg (A : CIRCLE) (s : Seg) (clr : Int) (wA wL : Bool) :
    0 ≤ (circleCollideSeg A s clr wA wL).actual.getD 0 := by
  unfold circleCollideSeg
  split
  · exact optIf_getD_nonneg (le_max_left ..)
  · simp

theorem chainCollideSeg_actual_nonneg (segs : List Seg) (s : Seg) (clr : Int) (wA wL : Bool) :
    0 ≤ (chainCollideSeg segs s clr wA wL).actual.getD 0 := by
  unfold chainCollideSeg
  split
  · exact optIf_getD_nonneg (isqrt_nonneg _)
  · simp

theorem rectCollideSeg_actual_nonneg (A : RECT) (s : Seg) (clr : Int) (wA wL : Bool) :
    0 ≤ (rectCollideSeg A s clr wA wL).actual.getD 0 := by
  unfold rectCollideSeg
  split
  · exact optIf_getD_nonneg (isqrt_nonneg _)
  · simp

theorem segShapeCollideSeg_actual_nonneg (A : SEGMENT) (s : Seg) (clr : Int) (wA wL : Bool) :
    0 ≤ (segShapeCollideSeg A s clr wA wL).actual.getD 0 := by
  unfold segShapeCollideSeg
  split
  · exact optIf_getD_nonneg (le_max_left ..)
  · simp

theorem iterSegLoop_fst_nonneg (f : Seg → MRes) (wA : Bool)
    (hf : ∀ s, 0 ≤ (f s).actual.getD 0) :
    ∀ (l : List Seg) (c0 : Int) (n0 : V2), 0 ≤ c0 → 0 ≤ (iterSegLoop f wA l c0 n0).1 := by
  intro l
  induction l with
  | nil => intro c0 n0 h0; exact h0
  | cons s rest ih =>
    intro c0 n0 h0
    unfold iterSegLoop
    split
    · split
      · split
        · exact hf s
        · exact ih _ _ (hf s)
      · exact ih _ _ h0
    · exact ih _ _ h0

theorem collideCC_actual_nonneg (A B : CIRCLE) (clr : Int) (wA wL wM : Bool) :
    0 ≤ (collideCC A B clr wA wL wM).actual.getD 0 := by
  unfold collideCC
  split
  · exact optIf_getD_nonneg (le_max_left ..)
  · simp [noColl]

theorem collideRC_actual_nonneg (A : RECT) (B : CIRCLE) (clr : Int) (wA wL wM : Bool) :
    0 ≤ (collideRC A B clr wA wL wM).actual.getD 0 := by
  unfold collideRC
  split
  · simp
  · dsimp only
    split
    · exact optIf_getD_nonneg (le_max_left ..)
    · simp [noColl]

theorem collideCircleChain_actual_nonneg (A : CIRCLE) (segs : List Seg) (clr : Int)
    (wA wL wM : Bool) : 0 ≤ (collideCircleChain A segs clr wA wL wM).actual.getD 0 := by
  unfold collideCircleChain
  dsimp only
  split
  · exact optIf_getD_nonneg (iterSegLoop_fst_nonneg _ _
      (fun s => circleCollideSeg_actual_nonneg A s clr (wA || wL) wL) _ _ _ (by decide))
  · simp [noColl]

theorem collideChainChain_actual_nonneg (sa sb : List Seg) (clr : Int) (wA wL wM : Bool) :
    0 ≤ (collideChainChain sa sb clr wA wL wM).actual.getD 0 := by
  unfold collideChainChain
  dsimp only
  split
  · exact optIf_getD_nonneg (iterSegLoop_fst_nonneg _ _
      (fun s => chainCollideSeg_actual_nonneg sa s clr (wA || wL) wL) _ _ _ (by decide))
  · simp [noColl]

theorem collideRectChain_actual_nonneg (A : RECT) (B : LineChain) (clr : Int)
    (wA wL wM : Bool) : 0 ≤ (collideRectChain A B clr wA wL wM).actual.getD 0 := by
  unfold collideRectChain
  split
  · exact optIf_getD_nonneg le_rfl
  · dsimp only
    split
    · exact optIf_getD_nonneg (iterSegLoop_fst_nonneg _ _
        (fun s => rectCollideSeg_actual_nonneg A s clr (wA || wL) wL) _ _ _ (by decide))
    · simp [noColl]

theorem collideRectSeg_actual_nonneg (A : RECT) (B : SEGMENT) (clr : Int) (wA wL wM : Bool) :
    0 ≤ (collideRectSeg A B clr wA wL wM).actual.getD 0 := by
  unfold collideRectSeg
  split
  · exact optIf_getD_nonneg (le_max_left ..)
  · simp [noColl]

theorem collideSegSeg_actual_nonneg (A B : SEGMENT) (clr : Int) (wA wL wM : Bool) :
    0 ≤ (collideSegSeg A B clr wA wL wM).actual.getD 0 := by
  unfold collideSegSeg
  split
  · exact optIf_getD_nonneg (le_max_left ..)
  · simp [noColl]

theorem collideChainSeg_actual_nonneg (segs : List Seg) (B : SEGMENT) (clr : Int)
    (wA wL wM : Bool) : 0 ≤ (collideChainSeg segs B clr wA wL wM).actual.getD 0 := by
  unfold collideChainSeg
  split
  · exact optIf_getD_nonneg (le_max_left ..)
  · simp [noColl]

theorem collideCircleSeg_actual_nonneg (A : CIRCLE) (B : SEGMENT) (clr : Int)
    (wA wL wM : Bool) : 0 ≤ (collideCircleSeg A B clr wA wL wM).actual.getD 0 := by
  unfold collideCircleSeg
  split
  · exact circleCollideSeg_actual_nonneg ..
  · simp [noColl]

theorem mtvReversed_actual (r : CollResult) : (mtvReversed r).actual = r.actual := by
  unfold mtvReversed
  split <;> rfl

theorem mtvReversed_hit (r : CollResult) : (mtvReversed r).hit = r.hit := by
  unfold mtvReversed
  split <;> rfl

theorem mtvReversed_location (r : CollResult) : (mtvReversed r).location = r.location := by
  unfold mtvReversed
  split <;> rfl

theorem mtvReversed_actual_nonneg (r : CollResult) (h : 0 ≤ r.actual.getD 0) :
    0 ≤ (mtvReversed r).actual.getD 0 := by
  rw [mtvReversed_actual]
  exact h

theorem single_actual_nonneg (A B : Shape) (clr : Int) (wA wL wM : Bool) :
    0 ≤ (collideSingleShapes A B clr wA wL wM).1.actual.getD 0 := by
  cases A with
  | nullS => rw [single_null_left]; exact le_refl (0:Int)
  | rect a =>
    cases B with
    | rect b => exact collideChainChain_actual_nonneg _ _ clr wA wL wM
    | circle b => exact collideRC_actual_nonneg _ _ clr wA wL wM
    | chain b => exact collideRectChain_actual_nonneg _ _ clr wA wL wM
    | seg b => exact collideRectSeg_actual_nonneg _ _ clr wA wL wM
    | simple b => exact collideRectChain_actual_nonneg _ _ clr wA wL wM
    | arc b => exact mtvReversed_actual_nonneg _ (collideChainChain_actual_nonneg _ _ clr wA wL wM)
    | nullS => exact le_refl (0:Int)
    | compound l => exact le_refl (0:Int)
  | circle a =>
    cases B with
    | rect b => exact mtvReversed_actual_nonneg _ (collideRC_actual_nonneg _ _ clr wA wL wM)
    | circle b => exact collideCC_actual_nonneg _ _ clr wA wL wM
    | chain b => exact collideCircleChain_actual_nonneg _ _ clr wA wL wM
    | seg b => exact collideCircleSeg_actual_nonneg _ _ clr wA wL wM
    | simple b => exact collideCircleChain_actual_nonneg _ _ clr wA wL wM
    | arc b => exact mtvReversed_actual_nonneg _ (mtvReversed_actual_nonneg _ (collideCircleChain_actual_nonneg _ _ clr wA wL wM))
    | nullS => exact le_refl (0:Int)
    | compound l => exact le_refl (0:Int)
  | chain a =>
    cases B with
    | rect b => exact collideRectChain_actual_nonneg _ _ clr wA wL wM
    | circle b => exact collideCircleChain_actual_nonneg _ _ clr wA wL wM
    | chain b => exact collideChainChain_actual_nonneg _ _ clr wA wL wM
    | seg b => exact collideChainSeg_actual_nonneg _ _ clr wA wL wM
    | simple b => exact collideChainChain_actual_nonneg _ _ clr wA wL wM
    | arc b => exact mtvReversed_actual_nonneg _ (collideChainChain_actual_nonneg _ _ clr wA wL wM)
    | nullS => exact le_refl (0:Int)
    | compound l => exact le_refl (0:Int)
  | seg a =>
    cases B with
    | rect b => exact collideRectSeg_actual_nonneg _ _ clr wA wL wM
    | circle b => exact mtvReversed_actual_nonneg _ (collideCircleSeg_actual_nonneg _ _ clr wA wL wM)
    | chain b => exact collideChainSeg_actual_nonneg _ _ clr wA wL wM
    | seg b => exact collideSegSeg_actual_nonneg _ _ clr wA wL wM
    | simple b => exact collideChainSeg_actual_nonneg _ _ clr wA wL wM
    | arc b => exact mtvReversed_actual_nonneg _ (collideChainSeg_actual_nonneg _ _ clr wA wL wM)
    | nullS => exact le_refl (0:Int)
    | compound l => exact le_refl (0:Int)
  | simple a =>
    cases B with
    | rect b => exact collideRectChain_actual_nonneg _ _ clr wA wL wM
    | circle b => exact collideCircleChain_actual_nonneg _ _ clr wA wL wM
    | chain b => exact collideChainChain_actual_nonneg _ _ clr wA wL wM
    | seg b => exact collideChainSeg_actual_nonneg _ _ clr wA wL wM
    | simple b => exact collideChainChain_actual_nonneg _ _ clr wA wL wM
    | arc b => exact mtvReversed_actual_nonneg _ (collideChainChain_actual_nonneg _ _ clr wA wL wM)
    | nullS => exact le_refl (0:Int)
    | compound l => exact le_refl (0:Int)
  | arc a =>
    cases B with
    | rect b => exact collideChainChain_actual_nonneg _ _ clr wA wL wM
    | circle b => exact mtvReversed_actual_nonneg _ (collideCircleChain_actual_nonneg _ _ clr wA wL wM)
    | chain b => exact collideChainChain_actual_nonneg _ _ clr wA wL wM
    | seg b => exact collideChainSeg_actual_nonneg _ _ clr wA wL wM
    | simple b => exact collideChainChain_actual_nonneg _ _ clr wA wL wM
    | arc b => exact collideChainChain_actual_nonneg _ _ clr wA wL wM
    | nullS => exact le_refl (0:Int)
    | compound l => exact le_refl (0:Int)
  | compound l =>
    cases B with
    | rect b => exact le_refl (0:Int)
    | circle b => exact le_refl (0:Int)
    | chain b => exact le_refl (0:Int)
    | seg b => exact le_refl (0:Int)
    | simple b => exact le_refl (0:Int)
    | arc b => exact le_refl (0:Int)
    | nullS => exact le_refl (0:Int)
    | compound lb => exact le_refl (0:Int)

/-- Whether a sub-shape pair collides, under the flag set the compound
aggregation passes down (`aActual || aLocation` for the actual slot). -/
def subHit (clr : Int) (wA wL wM : Bool) (p : Shape × Shape) : Bool :=
  (collideSingleShapes p.1 p.2 clr (wA || wL) wL wM).1.hit

/-- The per-pair collision distance the aggregation reads (0 when not
requested, as with the source's zero-initialized local). -/
def subActual (clr : Int) (wA wL wM : Bool) (p : Shape × Shape) : Int :=
  (collideSingleShapes p.1 p.2 clr (wA || wL) wL wM).1.actual.getD 0

/-- The per-pair location the aggregation reads. -/
def subLoc (clr : Int) (wA wL wM : Bool) (p : Shape × Shape) : V2 :=
  (collideSingleShapes p.1 p.2 clr (wA || wL) wL wM).1.location.getD V2.zero

/-- The per-pair MTV the aggregation reads. -/
def subMtv (clr : Int) (wA wL wM : Bool) (p : Shape × Shape) : V2 :=
  (collideSingleShapes p.1 p.2 clr (wA || wL) wL wM).1.mtv.getD V2.zero

/-- The collision distances of the colliding sub-pairs, in scan order. -/
def subActuals (clr : Int) (wA wL wM : Bool) (ps : List (Shape × Shape)) : List Int :=
  ps.filterMap (fun p =>
    if subHit clr wA wL wM p then some (subActual clr wA wL wM p) else none)

theorem subActuals_cons (clr : Int) (wA wL wM : Bool) (p : Shape × Shape)
    (ps : List (Shape × Shape)) :
    subActuals clr wA wL wM (p :: ps) =
      if subHit clr wA wL wM p then
        subActual clr wA wL wM p :: subActuals clr wA wL wM ps
      else subActuals clr wA wL wM ps := by
  unfold subActuals
  rw [List.filterMap_cons]
  split <;> simp_all

theorem subActual_nonneg (clr : Int) (wA wL wM : Bool) (p : Shape × Shape) :
    0 ≤ subActual clr wA wL wM p := single_actual_nonneg ..

theorem subActuals_mem_nonneg (clr : Int) (wA wL wM : Bool) {ps : List (Shape × Shape)}
    {a : Int} (h : a ∈ subActuals clr wA wL wM ps) : 0 ≤ a := by
  rcases List.mem_filterMap.mp h with ⟨p, _, hp⟩
  split at hp
  · cases hp; exact subActual_nonneg ..
  · cases hp

theorem if_lt_eq_min (a c : Int) : (if a < c then a else c) = min a c := by
  rw [min_def]
  split_ifs <;> omega

theorem sp_snd (clr : Int) (wA wL wM : Bool) (st : AggState) (p : Shape × Shape) :
    (stepPair clr wA wL wM st p).2.1 = subHit clr wA wL wM p := by
  unfold stepPair
  dsimp only
  cases hb : (collideSingleShapes p.1 p.2 clr (wA || wL) wL wM).1.hit with
  | true =>
    rw [if_pos (rfl : (true : Bool) = true)]
    exact hb.symm
  | false =>
    rw [if_neg Bool.false_ne_true]
    exact hb.symm

theorem sp_state_miss {clr : Int} {wA wL wM : Bool} {st : AggState} {p : Shape × Shape}
    (h : subHit clr wA wL wM p = false) :
    (stepPair clr wA wL wM st p).1 = st := by
  unfold stepPair
  dsimp only
  rw [if_neg (by rw [show (collideSingleShapes p.1 p.2 clr (wA || wL) wL wM).1.hit
    = subHit clr wA wL wM p from rfl, h]; exact Bool.false_ne_true)]

theorem sp_colliding {clr : Int} {wA wL wM : Bool} {st : AggState} {p : Shape × Shape}
    (h : subHit clr wA wL wM p = true) :
    (stepPair clr wA wL wM st p).1.colliding = true := by
  unfold stepPair
  dsimp only
  rw [if_pos (show (collideSingleShapes p.1 p.2 clr (wA || wL) wL wM).1.hit = true from h)]

theorem sp_colliding_formula (clr : Int) (wA wL wM : Bool) (st : AggState)
    (p : Shape × Shape) :
    (stepPair clr wA wL wM st p).1.colliding =
      (st.colliding || subHit clr wA wL wM p) := by
  cases h : subHit clr wA wL wM p with
  | true => rw [sp_colliding h]; simp
  | false => rw [sp_state_miss h]; simp

theorem sp_actual {clr : Int} {wA wL wM : Bool} {st : AggState} {p : Shape × Shape}
    (h : subHit clr wA wL wM p = true) :
    (stepPair clr wA wL wM st p).1.currentActual =
      min (subActual clr wA wL wM p) st.currentActual := by
  unfold stepPair
  dsimp only
  rw [if_pos (show (collideSingleShapes p.1 p.2 clr (wA || wL) wL wM).1.hit = true from h)]
  by_cases h2 : (collideSingleShapes p.1 p.2 clr (wA || wL) wL wM).1.actual.getD 0
      < st.currentActual
  · rw [if_pos h2,
      show min (subActual clr wA wL wM p) st.currentActual = subActual clr wA wL wM p from
        min_eq_left (le_of_lt h2)]
    split <;> rfl
  · rw [if_neg h2,
      show min (subActual clr wA wL wM p) st.currentActual = st.currentActual from
        min_eq_right (le_of_not_lt h2)]
    split <;> rfl

theorem sp_actual_loc {clr : Int} {wA wL wM : Bool} {st : AggState} {p : Shape × Shape}
    (h : subHit clr wA wL wM p = true) :
    ((stepPair clr wA wL wM st p).1.currentActual = subActual clr wA wL wM p ∧
      (stepPair clr wA wL wM st p).1.currentLocation = subLoc clr wA wL wM p) ∨
    ((stepPair clr wA wL wM st p).1.currentActual = st.currentActual ∧
      (stepPair clr wA wL wM st p).1.currentLocation = st.currentLocation) := by
  unfold stepPair
  dsimp only
  rw [if_pos (show (collideSingleShapes p.1 p.2 clr (wA || wL) wL wM).1.hit = true from h)]
  by_cases h2 : (collideSingleShapes p.1 p.2 clr (wA || wL) wL wM).1.actual.getD 0
      < st.currentActual
  · rw [if_pos h2]
    left
    constructor <;> (split <;> rfl)
  · rw [if_neg h2]
    right
    constructor <;> (split <;> rfl)

theorem st1_mtv_eq (cond : Prop) [Decidable cond] (st : AggState) (a : Int) (l : V2) :
    (if cond then { st with currentActual := a, currentLocation := l } else st).currentMTV
      = st.currentMTV := by
  split <;> rfl

theorem sp_mtv_mono (clr : Int) (wA wL wM : Bool) (st : AggState) (p : Shape × Shape) :
    sqNorm st.currentMTV ≤ sqNorm ((stepPair clr wA wL wM st p).1.currentMTV) := by
  cases hh : subHit clr wA wL wM p with
  | false => rw [sp_state_miss hh]
  | true =>
    unfold stepPair
    dsimp only
    rw [if_pos (show (collideSingleShapes p.1 p.2 clr (wA || wL) wL wM).1.hit = true from hh)]
    rw [st1_mtv_eq]
    by_cases h3 : (wM && decide (sqNorm st.currentMTV <
        sqNorm ((collideSingleShapes p.1 p.2 clr (wA || wL) wL wM).1.mtv.getD V2.zero))) = true
    · rw [if_pos h3]
      have := of_decide_eq_true (Bool.and_eq_true .. ▸ h3 : _ ∧ _).2
      exact le_of_lt this
    · rw [if_neg h3]
      exact le_of_eq (by rw [st1_mtv_eq])

theorem sp_mtv_dom {clr : Int} {wA wL wM : Bool} {st : AggState} {p : Shape × Shape}
    (hwM : wM = true) (hh : subHit clr wA wL wM p = true) :
    sqNorm (subMtv clr wA wL wM p) ≤ sqNorm ((stepPair clr wA wL wM st p).1.currentMTV) := by
  subst hwM
  unfold stepPair
  dsimp only
  rw [if_pos (show (collideSingleShapes p.1 p.2 clr (wA || wL) wL true).1.hit = true from hh)]
  rw [st1_mtv_eq]
  by_cases h3 : (true && decide (sqNorm st.currentMTV <
      sqNorm ((collideSingleShapes p.1 p.2 clr (wA || wL) wL true).1.mtv.getD V2.zero))) = true
  · rw [if_pos h3]
    exact le_refl _
  · rw [if_neg h3]
    rw [st1_mtv_eq]
    rw [Bool.true_and] at h3
    have h4 := of_decide_eq_false (Bool.of_not_eq_true h3)
    exact le_of_not_lt h4

theorem sp_mtv_mem (clr : Int) (wA wL wM : Bool) (st : AggState) (p : Shape × Shape) :
    (stepPair clr wA wL wM st p).1.currentMTV = st.currentMTV ∨
      (subHit clr wA wL wM p = true ∧
        (stepPair clr wA wL wM st p).1.currentMTV = subMtv clr wA wL wM p) := by
  cases hh : subHit clr wA wL wM p with
  | false => rw [sp_state_miss hh]; exact Or.inl rfl
  | true =>
    unfold stepPair
    dsimp only
    rw [if_pos (show (collideSingleShapes p.1 p.2 clr (wA || wL) wL wM).1.hit = true from hh)]
    rw [st1_mtv_eq]
    by_cases h3 : (wM && decide (sqNorm st.currentMTV <
        sqNorm ((collideSingleShapes p.1 p.2 clr (wA || wL) wL wM).1.mtv.getD V2.zero))) = true
    · rw [if_pos h3]
      exact Or.inr ⟨rfl, rfl⟩
    · rw [if_neg h3]
      exact Or.inl (by rw [st1_mtv_eq])

theorem canExit_wM_false {wA wM : Bool} (hwM : wM = true) (st : AggState) :
    canExit wA wM st = false := by
  unfold canExit
  rw [hwM]
  simp

theorem aggLoop_colliding (clr : Int) (wA wL wM : Bool) :
    ∀ (ps : List (Shape × Shape)) (st : AggState) (af : Bool),
    (aggLoop clr wA wL wM ps st af).1.colliding =
      (st.colliding || ps.any (subHit clr wA wL wM)) := by
  intro ps
  induction ps with
  | nil => intro st af; simp [aggLoop]
  | cons p rest ih =>
    intro st af
    unfold aggLoop
    dsimp only
    split
    · rename_i hex
      have hhit : subHit clr wA wL wM p = true := by
        have := (Bool.and_eq_true .. ▸ hex : _ ∧ _).1
        rwa [sp_snd] at this
      rw [sp_colliding hhit]
      simp [List.any_cons, hhit]
    · rw [ih, sp_colliding_formula]
      simp [List.any_cons, Bool.or_assoc]

theorem foldMin_min_init (l : List Int) (a c : Int) :
    foldMin l (min a c) = min a (foldMin l c) := by
  induction l with
  | nil => rfl
  | cons b l ih =>
    rw [foldMin_cons, ih, foldMin_cons, min_left_comm]

theorem aggLoop_actual (clr : Int) (wA wL wM : Bool) (hwA : wA = true) :
    ∀ (ps : List (Shape × Shape)) (st : AggState) (af : Bool), 0 ≤ st.currentActual →
    (aggLoop clr wA wL wM ps st af).1.currentActual =
      foldMin (subActuals clr wA wL wM ps) st.currentActual := by
  subst hwA
  intro ps
  induction ps with
  | nil => intro st af _; simp [aggLoop, subActuals, foldMin_nil]
  | cons p rest ih =>
    intro st af h0
    unfold aggLoop
    dsimp only
    split
    · rename_i hex
      rcases (Bool.and_eq_true .. ▸ hex : _ ∧ _) with ⟨hh, hce⟩
      rw [sp_snd] at hh
      have hcur : (stepPair clr true wL wM st p).1.currentActual =
          min (subActual clr true wL wM p) st.currentActual := sp_actual hh
      have hccol := @sp_colliding _ _ _ _ st _ hh
      unfold canExit at hce
      have hle : (stepPair clr true wL wM st p).1.currentActual ≤ 0 := by
        rcases Bool.and_eq_true .. ▸ hce with ⟨h1, _⟩
        rcases Bool.and_eq_true .. ▸ h1 with ⟨_, h2⟩
        simpa using h2
      have ha := subActual_nonneg clr true wL wM p
      have hzero : min (subActual clr true wL wM p) st.currentActual = 0 := by
        rw [hcur] at hle
        rcases min_cases (subActual clr true wL wM p) st.currentActual with ⟨he, _⟩ | ⟨he, _⟩ <;>
          omega
      rw [hcur, hzero, subActuals_cons, if_pos hh, foldMin_cons]
      have hX : 0 ≤ foldMin (subActuals clr true wL wM rest) st.currentActual :=
        foldMin_nonneg h0 (fun a hmem => subActuals_mem_nonneg clr true wL wM hmem)
      have hXle : foldMin (subActuals clr true wL wM rest) st.currentActual ≤ st.currentActual :=
        foldMin_le_init ..
      rcases min_cases (subActual clr true wL wM p) st.currentActual with ⟨_, hc⟩ | ⟨_, hc⟩ <;>
        rcases min_cases (subActual clr true wL wM p)
          (foldMin (subActuals clr true wL wM rest) st.currentActual) with ⟨he2, _⟩ | ⟨he2, _⟩ <;>
        omega
    · cases hh : subHit clr true wL wM p with
      | false =>
        rw [sp_state_miss hh, ih st (af || (stepPair clr true wL wM st p).2.2) h0,
          subActuals_cons, if_neg (by rw [hh]; exact Bool.false_ne_true)]
      | true =>
        have hcur : (stepPair clr true wL wM st p).1.currentActual =
            min (subActual clr true wL wM p) st.currentActual := sp_actual hh
        rw [ih _ _ (by rw [hcur]; exact le_min (subActual_nonneg ..) h0), hcur,
          foldMin_min_init, subActuals_cons, if_pos hh, foldMin_cons]

theorem aggLoop_locpair (clr : Int) (wA wL wM : Bool) (hwA : wA = true) :
    ∀ (ps : List (Shape × Shape)) (st : AggState) (af : Bool),
    0 ≤ st.currentActual →
    (st.colliding = false → st.currentActual = intMax) →
    (∀ p ∈ ps, subHit clr wA wL wM p = true → subActual clr wA wL wM p < intMax) →
    (aggLoop clr wA wL wM ps st af).1.colliding = true →
    (st.colliding = true ∧
      (aggLoop clr wA wL wM ps st af).1.currentActual = st.currentActual ∧
      (aggLoop clr wA wL wM ps st af).1.currentLocation = st.currentLocation) ∨
    (∃ p ∈ ps, subHit clr wA wL wM p = true ∧
      (aggLoop clr wA wL wM ps st af).1.currentActual = subActual clr wA wL wM p ∧
      (aggLoop clr wA wL wM ps st af).1.currentLocation = subLoc clr wA wL wM p) := by
  subst hwA
  intro ps
  induction ps with
  | nil =>
    intro st af _ _ _ hcol
    exact Or.inl ⟨by simpa [aggLoop] using hcol, rfl, rfl⟩
  | cons p rest ih =>
    intro st af h0 hinit hsmall hcol
    rw [show aggLoop clr true wL wM (p :: rest) st af =
        (if (stepPair clr true wL wM st p).2.1 && canExit true wM (stepPair clr true wL wM st p).1
          then ((stepPair clr true wL wM st p).1, af || (stepPair clr true wL wM st p).2.2)
          else aggLoop clr true wL wM rest (stepPair clr true wL wM st p).1
            (af || (stepPair clr true wL wM st p).2.2)) from rfl] at hcol ⊢
    split at hcol
    · rename_i hex
      rcases (Bool.and_eq_true .. ▸ hex : _ ∧ _) with ⟨hh, _⟩
      rw [sp_snd] at hh
      rw [if_pos hex]
      rcases @sp_actual_loc _ _ _ _ st _ hh with ⟨ha, hl⟩ | ⟨ha, hl⟩
      · exact Or.inr ⟨p, List.mem_cons_self .., hh, ha, hl⟩
      · cases hc : st.colliding with
        | true => exact Or.inl ⟨rfl, ha, hl⟩
        | false =>
          have hmax := hinit hc
          have hmin : (stepPair clr true wL wM st p).1.currentActual =
              min (subActual clr true wL wM p) st.currentActual := sp_actual hh
          have := hsmall p (List.mem_cons_self ..) hh
          rw [ha, hmax] at hmin
          rcases min_cases (subActual clr true wL wM p) st.currentActual with ⟨he, h2⟩ | ⟨he, _⟩
          · rw [hmax] at he; omega
          · rw [hmax] at he; omega
    · rename_i hx
      rw [if_neg hx]
      cases hh : subHit clr true wL wM p with
      | false =>
        rw [sp_state_miss hh] at hcol ⊢
        rcases ih st _ h0 hinit (fun q hq => hsmall q (List.mem_cons_of_mem _ hq)) hcol with
          h | ⟨q, hq, hrest⟩
        · exact Or.inl h
        · exact Or.inr ⟨q, List.mem_cons_of_mem _ hq, hrest⟩
      | true =>
        have hmin : (stepPair clr true wL wM st p).1.currentActual =
            min (subActual clr true wL wM p) st.currentActual := sp_actual hh
        have h0' : 0 ≤ (stepPair clr true wL wM st p).1.currentActual := by
          rw [hmin]; exact le_min (subActual_nonneg ..) h0
        have hinit' : (stepPair clr true wL wM st p).1.colliding = false →
            (stepPair clr true wL wM st p).1.currentActual = intMax := by
          intro hcf
          rw [sp_colliding hh] at hcf
          exact absurd hcf (by simp)
        rcases ih ((stepPair clr true wL wM st p).1) _ h0' hinit'
            (fun q hq => hsmall q (List.mem_cons_of_mem _ hq)) hcol with
          ⟨_, hra, hrl⟩ | ⟨q, hq, hrest⟩
        · rcases @sp_actual_loc _ _ _ _ st _ hh with ⟨ha, hl⟩ | ⟨ha, hl⟩
          · exact Or.inr ⟨p, List.mem_cons_self .., hh, hra.trans ha, hrl.trans hl⟩
          · cases hc : st.colliding with
            | true => exact Or.inl ⟨rfl, hra.trans ha, hrl.trans hl⟩
            | false =>
              have hmax := hinit hc
              have := hsmall p (List.mem_cons_self ..) hh
              rw [ha, hmax] at hmin
              rcases min_cases (subActual clr true wL wM p) st.currentActual with
                ⟨he, _⟩ | ⟨he, _⟩
              · rw [hmax] at he; omega
              · rw [hmax] at he; omega
        · exact Or.inr ⟨q, List.mem_cons_of_mem _ hq, hrest⟩

theorem aggLoop_mtv_mono (clr : Int) (wA wL wM : Bool) :
    ∀ (ps : List (Shape × Shape)) (st : AggState) (af : Bool),
    sqNorm st.currentMTV ≤ sqNorm ((aggLoop clr wA wL wM ps st af).1.currentMTV) := by
  intro ps
  induction ps with
  | nil => intro st af; exact le_refl _
  | cons p rest ih =>
    intro st af
    unfold aggLoop
    dsimp only
    split
    · exact sp_mtv_mono ..
    · exact (sp_mtv_mono ..).trans (ih _ _)

theorem aggLoop_mtv_dom (clr : Int) (wA wL wM : Bool) (hwM : wM = true) :
    ∀ (ps : List (Shape × Shape)) (st : AggState) (af : Bool) (q : Shape × Shape),
    q ∈ ps → subHit clr wA wL wM q = true →
    sqNorm (subMtv clr wA wL wM q) ≤ sqNorm ((aggLoop clr wA wL wM ps st af).1.currentMTV) := by
  subst hwM
  intro ps
  induction ps with
  | nil => intro st af q hq; cases hq
  | cons p rest ih =>
    intro st af q hq hhit
    unfold aggLoop
    dsimp only
    rw [canExit_wM_false rfl]
    rw [show ((stepPair clr wA wL true st p).2.1 && false) = false from Bool.and_false _]
    rw [if_neg Bool.false_ne_true]
    rcases List.mem_cons.mp hq with rfl | hq2
    · exact (sp_mtv_dom rfl hhit).trans (aggLoop_mtv_mono ..)
    · exact ih _ _ q hq2 hhit

theorem aggLoop_mtv_mem (clr : Int) (wA wL wM : Bool) (hwM : wM = true) :
    ∀ (ps : List (Shape × Shape)) (st : AggState) (af : Bool),
    (aggLoop clr wA wL wM ps st af).1.currentMTV = st.currentMTV ∨
      ∃ p ∈ ps, subHit clr wA wL wM p = true ∧
        (aggLoop clr wA wL wM ps st af).1.currentMTV = subMtv clr wA wL wM p := by
  subst hwM
  intro ps
  induction ps with
  | nil => intro st af; exact Or.inl rfl
  | cons p rest ih =>
    intro st af
    unfold aggLoop
    dsimp only
    rw [canExit_wM_false rfl]
    rw [show ((stepPair clr wA wL true st p).2.1 && false) = false from Bool.and_false _]
    rw [if_neg Bool.false_ne_true]
    rcases ih ((stepPair clr wA wL true st p).1)
        (af || (stepPair clr wA wL true st p).2.2) with h | ⟨q, hq, hhit, heq⟩
    · rw [h]
      rcases sp_mtv_mem clr wA wL true st p with h2 | ⟨hhit, h2⟩
      · exact Or.inl h2
      · exact Or.inr ⟨p, List.mem_cons_self .., hhit, h2⟩
    · exact Or.inr ⟨q, List.mem_cons_of_mem _ hq, hhit, heq⟩

/-- C4: compound aggregation.  When at least one operand is a compound, the
query collides iff some sub-shape pair collides (under the flags the
aggregation passes down); with actual requested, the reported actual is the
minimum collision distance over the colliding sub-pairs (folded against the
INT_MAX sentinel, as in the source); with actual and location requested
(and the per-pair distances within the int range), the reported location
belongs to a colliding sub-pair realizing that minimum; with MTV requested,
the reported MTV dominates every colliding sub-pair's MTV in magnitude and
is either one of them or the zero initial value. -/
theorem compoundAggregation (A B : Shape) (clr : Int) (wA wL wM : Bool)
    (hC : A.isCompound = true ∨ B.isCompound = true) :
    ((collideShapes A B clr wA wL wM).1.hit =
        (subPairs A B).any (subHit clr wA wL wM)) ∧
    (wA = true → (collideShapes A B clr wA wL wM).1.hit = true →
      (collideShapes A B clr wA wL wM).1.actual =
        some (foldMin (subActuals clr wA wL wM (subPairs A B)) intMax)) ∧
    (wA = true → wL = true →
      (∀ p ∈ subPairs A B, subHit clr wA wL wM p = true →
        subActual clr wA wL wM p < intMax) →
      (collideShapes A B clr wA wL wM).1.hit = true →
      ∃ p ∈ subPairs A B, subHit clr wA wL wM p = true ∧
        subActual clr wA wL wM p = foldMin (subActuals clr wA wL wM (subPairs A B)) intMax ∧
        (collideShapes A B clr wA wL wM).1.location = some (subLoc clr wA wL wM p)) ∧
    (wM = true → (collideShapes A B clr wA wL wM).1.hit = true →
      ∃ m, (collideShapes A B clr wA wL wM).1.mtv = some m ∧
        (∀ p ∈ subPairs A B, subHit clr wA wL wM p = true →
          sqNorm (subMtv clr wA wL wM p) ≤ sqNorm m) ∧
        (m = V2.zero ∨ ∃ p ∈ subPairs A B, subHit clr wA wL wM p = true ∧
          m = subMtv clr wA wL wM p)) := by
  have hC2 : (A.isCompound || B.isCompound) = true := by
    rcases hC with h | h <;> simp [h]
  set lp := aggLoop clr wA wL wM (subPairs A B) ⟨intMax, V2.zero, V2.zero, false⟩ false with hlp
  have hEq : collideShapes A B clr wA wL wM =
      (if lp.1.colliding then
         { hit := true
           actual := if wA then some lp.1.currentActual else none
           location := if wL then some lp.1.currentLocation else none
           mtv := if wM then some lp.1.currentMTV else none }
       else noColl, lp.2) := by
    unfold collideShapes
    rw [if_pos hC2]
  have hcolAny : lp.1.colliding = (subPairs A B).any (subHit clr wA wL wM) := by
    rw [hlp, aggLoop_colliding]
    simp
  refine ⟨?_, ?_, ?_, ?_⟩
  · rw [hEq]
    cases hcol : lp.1.colliding with
    | true =>
      rw [if_pos (rfl : (true : Bool) = true)]
      show true = (subPairs A B).any (subHit clr wA wL wM)
      rw [← hcolAny]
      exact hcol.symm
    | false =>
      rw [if_neg Bool.false_ne_true]
      show false = (subPairs A B).any (subHit clr wA wL wM)
      rw [← hcolAny]
      exact hcol.symm
  · intro hwA hhit
    subst hwA
    rw [hEq] at hhit ⊢
    cases hcol : lp.1.colliding with
    | false =>
      rw [hcol] at hhit
      rw [if_neg Bool.false_ne_true] at hhit
      simp [noColl] at hhit
    | true =>
      rw [if_pos (rfl : (true : Bool) = true)]
      show some lp.1.currentActual = _
      have hfold := aggLoop_actual clr true wL wM rfl (subPairs A B)
        ⟨intMax, V2.zero, V2.zero, false⟩ false (by decide)
      rw [← hlp] at hfold
      exact congrArg some hfold
  · intro hwA hwL hsmall hhit
    subst hwA
    subst hwL
    rw [hEq] at hhit
    cases hcol : lp.1.colliding with
    | false =>
      rw [hcol] at hhit
      rw [if_neg Bool.false_ne_true] at hhit
      simp [noColl] at hhit
    | true =>
      have hloc := aggLoop_locpair clr true true wM rfl (subPairs A B)
        ⟨intMax, V2.zero, V2.zero, false⟩ false (by decide) (fun _ => rfl) hsmall
        (by rw [← hlp]; exact hcol)
      rw [← hlp] at hloc
      rcases hloc with ⟨hbad, _, _⟩ | ⟨p, hp, hhitp, hact, hlocp⟩
      · exact absurd hbad (by decide)
      · have hactfold := aggLoop_actual clr true true wM rfl (subPairs A B)
          ⟨intMax, V2.zero, V2.zero, false⟩ false (by decide)
        rw [← hlp] at hactfold
        refine ⟨p, hp, hhitp, hact ▸ hactfold, ?_⟩
        rw [hEq, hcol]
        rw [if_pos (rfl : (true : Bool) = true)]
        show some lp.1.currentLocation = _
        exact congrArg some hlocp
  · intro hwM hhit
    subst hwM
    rw [hEq] at hhit
    cases hcol : lp.1.colliding with
    | false =>
      rw [hcol] at hhit
      rw [if_neg Bool.false_ne_true] at hhit
      simp [noColl] at hhit
    | true =>
      refine ⟨lp.1.currentMTV, ?_, ?_, ?_⟩
      · rw [hEq, hcol]
        rw [if_pos (rfl : (true : Bool) = true)]
        rfl
      · intro p hp hhitp
        have := aggLoop_mtv_dom clr wA wL true rfl (subPairs A B)
          ⟨intMax, V2.zero, V2.zero, false⟩ false p hp hhitp
        rwa [← hlp] at this
      · have := aggLoop_mtv_mem clr wA wL true rfl (subPairs A B)
          ⟨intMax, V2.zero, V2.zero, false⟩ false
        rw [← hlp] at this
        rcases this with h | ⟨p, hp, hhitp, heq⟩
        · exact Or.inl h
        · exact Or.inr ⟨p, hp, hhitp, heq⟩

/-- Witness for `compoundAggregation`: a compound of two circles against a
rectangle, with actual, location and MTV all requested, at clearance 0; the
aggregation hypothesis and the inner flag/range/hit hypotheses all hold
concretely, and a colliding sub-pair realizes the folded minimum actual and
provides the reported location. -/
theorem compoundAggregation_witness :
    ((Shape.compound [Shape.circle ⟨⟨5,5⟩,3⟩, Shape.circle ⟨⟨50,5⟩,3⟩]).isCompound = true ∨
      (Shape.rect ⟨⟨0,0⟩,⟨10,10⟩⟩).isCompound = true) ∧
    (∀ p ∈ subPairs (Shape.compound [Shape.circle ⟨⟨5,5⟩,3⟩, Shape.circle ⟨⟨50,5⟩,3⟩])
        (Shape.rect ⟨⟨0,0⟩,⟨10,10⟩⟩), subHit 0 true true true p = true →
        subActual 0 true true true p < intMax) ∧
    (collideShapes (Shape.compound [Shape.circle ⟨⟨5,5⟩,3⟩, Shape.circle ⟨⟨50,5⟩,3⟩])
        (Shape.rect ⟨⟨0,0⟩,⟨10,10⟩⟩) 0 true true true).1.hit = true ∧
    ∃ p ∈ subPairs (Shape.compound [Shape.circle ⟨⟨5,5⟩,3⟩, Shape.circle ⟨⟨50,5⟩,3⟩])
        (Shape.rect ⟨⟨0,0⟩,⟨10,10⟩⟩), subHit 0 true true true p = true ∧
      subActual 0 true true true p =
        foldMin (subActuals 0 true true true
          (subPairs (Shape.compound [Shape.circle ⟨⟨5,5⟩,3⟩, Shape.circle ⟨⟨50,5⟩,3⟩])
            (Shape.rect ⟨⟨0,0⟩,⟨10,10⟩⟩))) intMax ∧
      (collideShapes (Shape.compound [Shape.circle ⟨⟨5,5⟩,3⟩, Shape.circle ⟨⟨50,5⟩,3⟩])
          (Shape.rect ⟨⟨0,0⟩,⟨10,10⟩⟩) 0 true true true).1.location =
        some (subLoc 0 true true true p) :=
  ⟨by decide, by decide, by decide,
    (compoundAggregation (Shape.compound [Shape.circle ⟨⟨5,5⟩,3⟩, Shape.circle ⟨⟨50,5⟩,3⟩])
      (Shape.rect ⟨⟨0,0⟩,⟨10,10⟩⟩) 0 true true true (by decide)).2.2.1
      rfl rfl (by decide) (by decide)⟩

/-! ## C2: argument-order symmetry of `collideSingleShapes` -/

/-- Constructor tag of a shape (the `Type()` discriminator used by the
dispatcher). -/
def Shape.kindIdx : Shape → Nat
  | .rect _ => 0
  | .circle _ => 1
  | .chain _ => 2
  | .seg _ => 3
  | .simple _ => 4
  | .arc _ => 5
  | .nullS => 6
  | .compound _ => 7

/-- Whether two shapes carry the same type tag. -/
def sameKind (A B : Shape) : Bool := A.kindIdx == B.kindIdx

/-- Nonnegative stadium width for segment shapes (`SHAPE_SEGMENT` widths are
physical track widths, never negative); trivially true for every other
shape. -/
def segWidthOk : Shape → Bool
  | .seg s => decide (0 ≤ s.width)
  | _ => true

/-- The circle–polyline pairings that lines 542 and 603 dispatch by swapping
the arguments into `Collide(SHAPE_CIRCLE, SHAPE_LINE_CHAIN_BASE)` directly,
without going through `CollCaseReversed`: a circle against a
`SHAPE_LINE_CHAIN` or a `SHAPE_SIMPLE`, in either order. -/
def isCircleChainPair : Shape → Shape → Bool
  | .circle _, .chain _ => true
  | .circle _, .simple _ => true
  | .chain _, .circle _ => true
  | .simple _, .circle _ => true
  | _, _ => false

/-- Minimum segment-pair squared distance between two segment lists, against
the `ECOORD_MAX` sentinel of the source's iteration loops. -/
def pairMinSq (sa sb : List Seg) : Int :=
  foldMin (sb.flatMap (fun b => sa.map (fun a => segSegSq a b))) ecoordMax

theorem pairMinSq_le_mem {sa sb : List Seg} {a b : Seg} (ha : a ∈ sa) (hb : b ∈ sb) :
    pairMinSq sa sb ≤ segSegSq a b :=
  foldMin_le_mem (List.mem_flatMap.mpr ⟨b, hb, List.mem_map.mpr ⟨a, ha, rfl⟩⟩)

theorem pairMinSq_le_init (sa sb : List Seg) : pairMinSq sa sb ≤ ecoordMax :=
  foldMin_le_init _ _

theorem le_pairMinSq {sa sb : List Seg} {x : Int} (hi : x ≤ ecoordMax)
    (h : ∀ a ∈ sa, ∀ b ∈ sb, x ≤ segSegSq a b) : x ≤ pairMinSq sa sb := by
  refine le_foldMin_iff.mpr ⟨hi, ?_⟩
  intro v hv
  rcases List.mem_flatMap.mp hv with ⟨b, hb, hv2⟩
  rcases List.mem_map.mp hv2 with ⟨a, ha, rfl⟩
  exact h a ha b hb

theorem pairMinSq_comm (sa sb : List Seg) : pairMinSq sa sb = pairMinSq sb sa := by
  refine le_antisymm ?_ ?_
  · refine le_pairMinSq (pairMinSq_le_init _ _) ?_
    intro b hb a ha
    rw [segSegSq_comm]
    exact pairMinSq_le_mem ha hb
  · refine le_pairMinSq (pairMinSq_le_init _ _) ?_
    intro a ha b hb
    rw [segSegSq_comm]
    exact pairMinSq_le_mem hb ha

theorem chainSegSq_nonneg (segs : List Seg) (s : Seg) : 0 ≤ chainSegSq segs s :=
  foldMin_nonneg (by norm_num [ecoordMax]) (by
    intro a ha
    rcases List.mem_map.mp ha with ⟨t, _, rfl⟩
    exact segSegSq_nonneg t s)

theorem pairMinSq_nonneg (sa sb : List Seg) : 0 ≤ pairMinSq sa sb :=
  foldMin_nonneg (by norm_num [ecoordMax]) (by
    intro a ha
    rcases List.mem_flatMap.mp ha with ⟨b, _, hv⟩
    rcases List.mem_map.mp hv with ⟨t, _, rfl⟩
    exact segSegSq_nonneg t b)

theorem pairMin_le_chainSegSq {sa sb : List Seg} {b : Seg} (hb : b ∈ sb) :
    pairMinSq sa sb ≤ chainSegSq sa b := by
  refine le_foldMin_iff.mpr ⟨pairMinSq_le_init _ _, ?_⟩
  intro v hv
  rcases List.mem_map.mp hv with ⟨a, ha, rfl⟩
  exact pairMinSq_le_mem ha hb

theorem intMaxSq_lt_ecoordMax : intMax * intMax < ecoordMax := by
  norm_num [intMax, ecoordMax]

/-- The MTV slot after `CollCaseReversed`, for routines that never write the
MTV pointer on a miss: the reported MTV is the negation of the direct one. -/
theorem mtvReversed_mtv (r : CollResult) (h : r.hit = false → r.mtv = none) :
    (mtvReversed r).mtv = r.mtv.map Neg.neg := by
  unfold mtvReversed
  cases hh : r.hit with
  | true => rw [if_pos rfl]
  | false =>
    rw [if_neg Bool.false_ne_true, h hh]
    rfl

theorem option_map_neg_neg (o : Option V2) : (o.map Neg.neg).map Neg.neg = o := by
  cases o with
  | none => rfl
  | some v =>
    show some (- -v) = some v
    rw [neg_neg_v2]

theorem mtv_unneg (r : CollResult) (h : r.hit = false → r.mtv = none) :
    ((mtvReversed r).mtv).map Neg.neg = r.mtv := by
  rw [mtvReversed_mtv r h, option_map_neg_neg]

theorem mtvOk_reversed {r : CollResult} (h : r.hit = false → r.mtv = none) :
    (mtvReversed r).hit = false → (mtvReversed r).mtv = none := by
  intro hh
  rw [mtvReversed_hit] at hh
  rw [mtvReversed_mtv r h, h hh]
  rfl

/-- The chain–chain routine never writes an MTV (lines 240–281 take no
`aMTV`). -/
theorem collideChainChain_mtv_none (sa sb : List Seg) (clr : Int) (wA wL wM : Bool) :
    (collideChainChain sa sb clr wA wL wM).mtv = none := by
  unfold collideChainChain
  dsimp only
  split <;> rfl

theorem collideRectChain_mtv_none (a : RECT) (b : LineChain) (clr : Int) (wA wL wM : Bool) :
    (collideRectChain a b clr wA wL wM).mtv = none := by
  unfold collideRectChain
  dsimp only
  split_ifs <;> rfl

theorem collideRectSeg_mtv_none (a : RECT) (b : SEGMENT) (clr : Int) (wA wL wM : Bool) :
    (collideRectSeg a b clr wA wL wM).mtv = none := by
  unfold collideRectSeg
  split <;> rfl

theorem collideSegSeg_mtv_none (a b : SEGMENT) (clr : Int) (wA wL wM : Bool) :
    (collideSegSeg a b clr wA wL wM).mtv = none := by
  unfold collideSegSeg
  split <;> rfl

theorem collideChainSeg_mtv_none (sa : List Seg) (b : SEGMENT) (clr : Int) (wA wL wM : Bool) :
    (collideChainSeg sa b clr wA wL wM).mtv = none := by
  unfold collideChainSeg
  split <;> rfl

/-- On a miss the rect–circle routine never wrote the MTV pointer. -/
theorem collideRC_miss_mtv (a : RECT) (b : CIRCLE) (clr : Int) (wA wL wM : Bool) :
    (collideRC a b clr wA wL wM).hit = false → (collideRC a b clr wA wL wM).mtv = none := by
  unfold collideRC
  dsimp only
  split_ifs <;> intro h <;> first | rfl | simp at h

theorem collideCC_miss_mtv (a b : CIRCLE) (clr : Int) (wA wL wM : Bool) :
    (collideCC a b clr wA wL wM).hit = false → (collideCC a b clr wA wL wM).mtv = none := by
  unfold collideCC
  split_ifs <;> intro h <;> first | rfl | simp at h

theorem collideCircleChain_miss_mtv (a : CIRCLE) (segs : List Seg) (clr : Int) (wA wL wM : Bool) :
    (collideCircleChain a segs clr wA wL wM).hit = false →
      (collideCircleChain a segs clr wA wL wM).mtv = none := by
  unfold collideCircleChain
  dsimp only
  split_ifs <;> intro h <;> first | rfl | simp at h

theorem collideCircleSeg_miss_mtv (a : CIRCLE) (b : SEGMENT) (clr : Int) (wA wL wM : Bool) :
    (collideCircleSeg a b clr wA wL wM).hit = false →
      (collideCircleSeg a b clr wA wL wM).mtv = none := by
  unfold collideCircleSeg
  split_ifs <;> intro h <;> first | rfl | simp at h

/-- The iteration loops only ever lower their running `closest_dist`. -/
theorem iterSegLoop_le_init (f : Seg → MRes) (wA : Bool) :
    ∀ (l : List Seg) (c0 : Int) (n0 : V2), (iterSegLoop f wA l c0 n0).1 ≤ c0 := by
  intro l
  induction l with
  | nil => intro c0 n0; exact le_refl _
  | cons s rest ih =>
    intro c0 n0
    unfold iterSegLoop
    split
    · split
      · split
        · rename_i hlt _
          exact le_of_lt hlt
        · rename_i hlt _
          exact le_trans (ih _ _) (le_of_lt hlt)
      · exact ih _ _
    · exact ih _ _

/-- The iteration loops end below the clearance iff some member call hit,
whenever every member hit reports a collision distance in `[0, clearance)`
and the running distance starts at or above the clearance. -/
theorem iterSegLoop_hit_iff (f : Seg → MRes) (wA : Bool) (clr : Int)
    (hmem : ∀ s, (f s).hit = true →
      0 ≤ (f s).actual.getD 0 ∧ (f s).actual.getD 0 < clr) :
    ∀ (l : List Seg) (c0 : Int) (n0 : V2), clr ≤ c0 →
      ((iterSegLoop f wA l c0 n0).1 < clr ↔ ∃ s ∈ l, (f s).hit = true) := by
  intro l
  induction l with
  | nil =>
    intro c0 n0 hinit
    simp [iterSegLoop]
    omega
  | cons s rest ih =>
    intro c0 n0 hinit
    unfold iterSegLoop
    cases hh : (f s).hit with
    | false =>
      rw [if_neg Bool.false_ne_true]
      rw [ih c0 n0 hinit]
      constructor
      · rintro ⟨t, ht, h⟩
        exact ⟨t, List.mem_cons_of_mem _ ht, h⟩
      · rintro ⟨t, ht, h⟩
        rcases List.mem_cons.mp ht with rfl | ht2
        · exact absurd h (by rw [hh]; exact Bool.false_ne_true)
        · exact ⟨t, ht2, h⟩
    | true =>
      rw [if_pos (rfl : (true : Bool) = true)]
      have hcd := hmem s hh
      have hlt : (f s).actual.getD 0 < c0 := lt_of_lt_of_le hcd.2 hinit
      rw [if_pos hlt]
      by_cases hbr : (f s).actual.getD 0 = 0 ∨ wA = false
      · rw [if_pos hbr]
        constructor
        · intro _
          exact ⟨s, List.mem_cons_self .., hh⟩
        · intro _
          exact hcd.2
      · rw [if_neg hbr]
        constructor
        · intro _
          exact ⟨s, List.mem_cons_self .., hh⟩
        · intro _
          exact lt_of_le_of_lt (iterSegLoop_le_init f wA rest _ _) hcd.2

/-- With `aActual` requested the iteration loop computes the fold-min of the
member collision distances over the hitting segments (the `cd == 0` break
only ever exits at an unbeatable minimum). -/
theorem iterSegLoop_actual_foldMin (f : Seg → MRes)
    (hnn : ∀ s, (f s).hit = true → 0 ≤ (f s).actual.getD 0) :
    ∀ (l : List Seg) (c0 : Int) (n0 : V2), 0 ≤ c0 →
      (iterSegLoop f true l c0 n0).1 =
        foldMin ((l.filter (fun t => (f t).hit)).map (fun t => (f t).actual.getD 0)) c0 := by
  intro l
  induction l with
  | nil => intro c0 n0 _; rfl
  | cons s rest ih =>
    intro c0 n0 h0
    unfold iterSegLoop
    cases hh : (f s).hit with
    | false =>
      rw [if_neg Bool.false_ne_true, ih c0 n0 h0]
      simp only [List.filter_cons, hh, Bool.false_eq_true, if_false]
    | true =>
      rw [if_pos (rfl : (true : Bool) = true)]
      simp only [List.filter_cons, hh, if_true, List.map_cons, foldMin_cons]
      by_cases hlt : (f s).actual.getD 0 < c0
      · rw [if_pos hlt]
        by_cases hbr : (f s).actual.getD 0 = 0 ∨ (true : Bool) = false
        · have hcd0 : (f s).actual.getD 0 = 0 := by
            rcases hbr with h | h
            · exact h
            · exact absurd h (by simp)
          rw [if_pos hbr]
          show (f s).actual.getD 0 = _
          have hX : 0 ≤ foldMin ((rest.filter (fun t => (f t).hit)).map
              (fun t => (f t).actual.getD 0)) c0 :=
            foldMin_nonneg h0 (by
              intro v hv
              rcases List.mem_map.mp hv with ⟨t, htmem, rfl⟩
              exact hnn t (List.mem_filter.mp htmem).2)
          rw [hcd0]
          exact (min_eq_left hX).symm
        · rw [if_neg hbr]
          rw [ih _ _ (hnn s hh)]
          have h3 := foldMin_min_init ((rest.filter (fun t => (f t).hit)).map
            (fun t => (f t).actual.getD 0)) ((f s).actual.getD 0) c0
          rw [min_eq_left (le_of_lt hlt)] at h3
          exact h3
      · rw [if_neg hlt]
        rw [ih c0 n0 h0]
        exact (min_eq_right (le_trans (foldMin_le_init _ _) (not_lt.mp hlt))).symm

theorem chainCollideSeg_hit_iff (sa : List Seg) (s : Seg) (clr : Int) (w wL : Bool) :
    (chainCollideSeg sa s clr w wL).hit = true ↔ 0 < clr ∧ chainSegSq sa s < clr * clr := by
  unfold chainCollideSeg
  by_cases h : 0 < clr ∧ chainSegSq sa s < clr * clr
  · rw [if_pos h]
    exact ⟨fun _ => h, fun _ => rfl⟩
  · rw [if_neg h]
    exact ⟨fun hb => absurd hb (by simp), fun hc => absurd hc h⟩

theorem chainCollideSeg_actual_getD (sa : List Seg) (s : Seg) (clr : Int) (w wL : Bool)
    (hw : w = true) (hh : (chainCollideSeg sa s clr w wL).hit = true) :
    (chainCollideSeg sa s clr w wL).actual.getD 0 = isqrt (chainSegSq sa s) := by
  subst hw
  unfold chainCollideSeg at hh ⊢
  by_cases h : 0 < clr ∧ chainSegSq sa s < clr * clr
  · rw [if_pos h]
    rfl
  · rw [if_neg h] at hh
    simp at hh

theorem chainCollideSeg_cd_bounds (sa : List Seg) (clr : Int) (w wL : Bool) (s : Seg)
    (hh : (chainCollideSeg sa s clr w wL).hit = true) :
    0 ≤ (chainCollideSeg sa s clr w wL).actual.getD 0 ∧
      (chainCollideSeg sa s clr w wL).actual.getD 0 < clr := by
  have hc := (chainCollideSeg_hit_iff sa s clr w wL).mp hh
  unfold chainCollideSeg
  rw [if_pos hc]
  cases w with
  | false => exact ⟨le_refl 0, hc.1⟩
  | true =>
    refine ⟨isqrt_nonneg _, ?_⟩
    show isqrt (chainSegSq sa s) < clr
    exact (isqrt_lt_iff (chainSegSq_nonneg sa s) (le_of_lt hc.1)).mpr hc.2

theorem collideChainChain_hit_iff (sa sb : List Seg) (clr : Int) (wA wL wM : Bool)
    (hclr : clr ≤ intMax) :
    (collideChainChain sa sb clr wA wL wM).hit = true ↔
      0 < clr ∧ pairMinSq sa sb < clr * clr := by
  have hmem : ∀ s, (chainCollideSeg sa s clr (wA || wL) wL).hit = true →
      0 ≤ (chainCollideSeg sa s clr (wA || wL) wL).actual.getD 0 ∧
        (chainCollideSeg sa s clr (wA || wL) wL).actual.getD 0 < clr :=
    fun s => chainCollideSeg_cd_bounds sa clr (wA || wL) wL s
  have hiter := iterSegLoop_hit_iff (fun t => chainCollideSeg sa t clr (wA || wL) wL)
    wA clr hmem sb intMax V2.zero hclr
  unfold collideChainChain
  dsimp only
  by_cases h : (iterSegLoop (fun s => chainCollideSeg sa s clr (wA || wL) wL)
      wA sb intMax V2.zero).1 < clr
  · rw [if_pos h]
    refine ⟨fun _ => ?_, fun _ => rfl⟩
    rcases hiter.mp h with ⟨t, ht, hth⟩
    have hc := (chainCollideSeg_hit_iff sa t clr _ wL).mp hth
    exact ⟨hc.1, lt_of_le_of_lt (pairMin_le_chainSegSq ht) hc.2⟩
  · rw [if_neg h]
    refine ⟨fun hb => ?_, fun hc => ?_⟩
    · simp [noColl] at hb
    · exfalso
      apply h
      apply hiter.mpr
      rcases hc with ⟨h0, hp⟩
      rcases foldMin_eq_init_or_mem
          (sb.flatMap (fun b => sa.map (fun a => segSegSq a b))) ecoordMax with he | hm
      · exfalso
        have h1 : clr * clr ≤ intMax * intMax :=
          mul_le_mul hclr hclr (le_of_lt h0) (le_trans (le_of_lt h0) hclr)
        have h2 := intMaxSq_lt_ecoordMax
        unfold pairMinSq at hp
        omega
      · rcases List.mem_flatMap.mp hm with ⟨b, hb, hv⟩
        rcases List.mem_map.mp hv with ⟨a, ha, heq⟩
        refine ⟨b, hb, ?_⟩
        apply (chainCollideSeg_hit_iff sa b clr _ wL).mpr
        refine ⟨h0, ?_⟩
        have h2 : chainSegSq sa b ≤ segSegSq a b :=
          foldMin_le_mem (List.mem_map.mpr ⟨a, ha, rfl⟩)
        unfold pairMinSq at hp
        rw [heq] at h2
        exact lt_of_le_of_lt h2 hp

theorem collideChainChain_actual_none (sa sb : List Seg) (clr : Int) (wL wM : Bool) :
    (collideChainChain sa sb clr false wL wM).actual = none := by
  unfold collideChainChain
  dsimp only
  split <;> rfl

theorem collideChainChain_miss_actual (sa sb : List Seg) (clr : Int) (wA wL wM : Bool)
    (hh : (collideChainChain sa sb clr wA wL wM).hit = false) :
    (collideChainChain sa sb clr wA wL wM).actual = none := by
  unfold collideChainChain at hh ⊢
  dsimp only at hh ⊢
  by_cases h : (iterSegLoop (fun s => chainCollideSeg sa s clr (wA || wL) wL)
      wA sb intMax V2.zero).1 < clr
  · rw [if_pos h] at hh
    simp at hh
  · rw [if_neg h]
    rfl


/-- With actual requested, a hitting chain–chain query reports the floor
square root of the minimal segment-pair squared distance. -/
theorem collideChainChain_actual_eq (sa sb : List Seg) (clr : Int) (wL wM : Bool)
    (hclr : clr ≤ intMax)
    (hh : (collideChainChain sa sb clr true wL wM).hit = true) :
    (collideChainChain sa sb clr true wL wM).actual = some (isqrt (pairMinSq sa sb)) := by
  have hch := (collideChainChain_hit_iff sa sb clr true wL wM hclr).mp hh
  have hnn : ∀ s, ((fun t => chainCollideSeg sa t clr (true || wL) wL) s).hit = true →
      0 ≤ ((fun t => chainCollideSeg sa t clr (true || wL) wL) s).actual.getD 0 :=
    fun s hs => (chainCollideSeg_cd_bounds sa clr (true || wL) wL s hs).1
  have hchar := iterSegLoop_actual_foldMin (fun t => chainCollideSeg sa t clr (true || wL) wL)
    hnn sb intMax V2.zero (by norm_num [intMax])
  have hKlt : isqrt (pairMinSq sa sb) < clr :=
    (isqrt_lt_iff (pairMinSq_nonneg sa sb) (le_of_lt hch.1)).mpr hch.2
  have key : (iterSegLoop (fun s => chainCollideSeg sa s clr (true || wL) wL)
      true sb intMax V2.zero).1 = isqrt (pairMinSq sa sb) := by
    rw [hchar]
    refine le_antisymm ?_ ?_
    · have hne : pairMinSq sa sb < ecoordMax := by
        have h1 : clr * clr ≤ intMax * intMax :=
          mul_le_mul hclr hclr (le_of_lt hch.1) (le_trans (le_of_lt hch.1) hclr)
        have h2 := intMaxSq_lt_ecoordMax
        omega
      rcases foldMin_eq_init_or_mem
          (sb.flatMap (fun b => sa.map (fun a => segSegSq a b))) ecoordMax with he | hm
      · exfalso
        have : pairMinSq sa sb = ecoordMax := he
        omega
      · rcases List.mem_flatMap.mp hm with ⟨b, hb, hv⟩
        rcases List.mem_map.mp hv with ⟨a, ha, heq⟩
        have hcs : chainSegSq sa b = pairMinSq sa sb := by
          refine le_antisymm ?_ (pairMin_le_chainSegSq hb)
          have h2 : chainSegSq sa b ≤ segSegSq a b :=
            foldMin_le_mem (List.mem_map.mpr ⟨a, ha, rfl⟩)
          rw [heq] at h2
          exact h2
        have hbhit : (chainCollideSeg sa b clr (true || wL) wL).hit = true :=
          (chainCollideSeg_hit_iff sa b clr (true || wL) wL).mpr
            ⟨hch.1, by rw [hcs]; exact hch.2⟩
        have hmm : b ∈ sb.filter (fun t => (chainCollideSeg sa t clr (true || wL) wL).hit) :=
          List.mem_filter.mpr ⟨hb, hbhit⟩
        have hle := @foldMin_le_mem ((sb.filter
            (fun t => (chainCollideSeg sa t clr (true || wL) wL).hit)).map
            (fun t => (chainCollideSeg sa t clr (true || wL) wL).actual.getD 0))
          intMax _ (List.mem_map.mpr ⟨b, hmm, rfl⟩)
        rw [chainCollideSeg_actual_getD sa b clr (true || wL) wL (Bool.true_or wL) hbhit, hcs]
          at hle
        exact hle
    · refine le_foldMin_iff.mpr ⟨le_trans (le_of_lt hKlt) hclr, ?_⟩
      intro v hv
      rcases List.mem_map.mp hv with ⟨t, htmem, rfl⟩
      rcases List.mem_filter.mp htmem with ⟨htb, hthit⟩
      rw [chainCollideSeg_actual_getD sa t clr (true || wL) wL (Bool.true_or wL) hthit]
      exact isqrt_mono (pairMin_le_chainSegSq htb)
  unfold collideChainChain at hh ⊢
  dsimp only at hh ⊢
  by_cases h : (iterSegLoop (fun s => chainCollideSeg sa s clr (true || wL) wL)
      true sb intMax V2.zero).1 < clr
  · rw [if_pos h]
    show some (iterSegLoop (fun s => chainCollideSeg sa s clr (true || wL) wL)
      true sb intMax V2.zero).1 = _
    exact congrArg some key
  · rw [if_neg h] at hh
    simp [noColl] at hh

theorem bool_eq_of_true_iff {x y : Bool} (h : x = true ↔ y = true) : x = y := by
  cases x <;> cases y <;> simp_all

/-- Chain–chain collision is symmetric in its two chains for the hit flag
and the reported actual distance (the location depends on the iteration
order and the MTV slot is never written). -/
theorem collideChainChain_swap (sa sb : List Seg) (clr : Int) (wA wL wM : Bool)
    (hclr : clr ≤ intMax) :
    (collideChainChain sb sa clr wA wL wM).hit = (collideChainChain sa sb clr wA wL wM).hit ∧
    (collideChainChain sb sa clr wA wL wM).actual =
      (collideChainChain sa sb clr wA wL wM).actual := by
  have h1 := collideChainChain_hit_iff sb sa clr wA wL wM hclr
  have h2 := collideChainChain_hit_iff sa sb clr wA wL wM hclr
  rw [pairMinSq_comm sb sa] at h1
  have hhit : (collideChainChain sb sa clr wA wL wM).hit =
      (collideChainChain sa sb clr wA wL wM).hit :=
    bool_eq_of_true_iff (h1.trans h2.symm)
  refine ⟨hhit, ?_⟩
  cases wA with
  | false => rw [collideChainChain_actual_none, collideChainChain_actual_none]
  | true =>
    by_cases hAB : (collideChainChain sa sb clr true wL wM).hit = true
    · have hBA : (collideChainChain sb sa clr true wL wM).hit = true := by
        rw [hhit]; exact hAB
      rw [collideChainChain_actual_eq sb sa clr wL wM hclr hBA,
        collideChainChain_actual_eq sa sb clr wL wM hclr hAB, pairMinSq_comm]
    · have hBA : (collideChainChain sb sa clr true wL wM).hit = false := by
        rw [hhit]; exact Bool.not_eq_true _ ▸ hAB
      rw [collideChainChain_miss_actual sb sa clr true wL wM hBA,
        collideChainChain_miss_actual sa sb clr true wL wM
          (Bool.not_eq_true _ ▸ hAB)]

theorem v2_add_comm (a b : V2) : a + b = b + a := by
  show V2.mk (a.x + b.x) (a.y + b.y) = V2.mk (b.x + a.x) (b.y + a.y)
  rw [Int.add_comm a.x, Int.add_comm a.y]

theorem v2_neg_sub (a b : V2) : a - b = -(b - a) := by
  show V2.mk (a.x - b.x) (a.y - b.y) = V2.mk (-(b.x - a.x)) (-(b.y - a.y))
  rw [Int.neg_sub, Int.neg_sub]

theorem mtvReversed_mk_true (a : Option Int) (l m : Option V2) :
    mtvReversed ⟨true, a, l, m⟩ = ⟨true, a, l, m.map Neg.neg⟩ := rfl

/-- Swapping the two circles of the circle–circle routine goes through
`CollCaseReversed` exactly: same hit, same actual, same midpoint location,
negated MTV. -/
theorem collideCC_swap (A B : CIRCLE) (clr : Int) (wA wL wM : Bool) :
    collideCC B A clr wA wL wM = mtvReversed (collideCC A B clr wA wL wM) := by
  unfold collideCC
  have hsq : sqNorm (A.c - B.c) = sqNorm (B.c - A.c) := sqNorm_sub_comm _ _
  have hsum : clr + B.r + A.r = clr + A.r + B.r := by ring
  by_cases h : sqNorm (B.c - A.c) < (clr + A.r + B.r) * (clr + A.r + B.r)
  · rw [if_pos h, if_pos (by rw [hsq, hsum]; exact h), mtvReversed_mk_true]
    have hact : ∀ x : Int, x - B.r - A.r = x - A.r - B.r := fun x => by ring
    congr 1
    · rw [hsq, hact]
    · rw [v2_add_comm]
    · cases wM with
      | false => rfl
      | true =>
        show some (resizeV (A.c - B.c) (clr + B.r + A.r + 3 - ceilSqrtI (sqNorm (A.c - B.c))))
          = Option.map Neg.neg (some (resizeV (B.c - A.c)
              (clr + A.r + B.r + 3 - ceilSqrtI (sqNorm (B.c - A.c)))))
        rw [hsq, hsum, v2_neg_sub A.c B.c, resizeV_neg]
        rfl
  · rw [if_neg h, if_neg (by rw [hsq, hsum]; exact h)]
    rfl

theorem max_collapse (x a b : Int) (ha : 0 ≤ a) (hb : 0 ≤ b) :
    max 0 (max 0 (x - a) - b) = max 0 (x - a - b) := by
  simp only [max_def]
  split_ifs <;> omega

theorem segShapeCollideSeg_hit_iff (A : SEGMENT) (s : Seg) (clr : Int) (w wL : Bool) :
    (segShapeCollideSeg A s clr w wL).hit = true ↔
      0 < clr + Int.tdiv A.width 2 ∧
        segSegSq A.seg s < (clr + Int.tdiv A.width 2) * (clr + Int.tdiv A.width 2) := by
  unfold segShapeCollideSeg
  by_cases h : 0 < clr + Int.tdiv A.width 2 ∧
      segSegSq A.seg s < (clr + Int.tdiv A.width 2) * (clr + Int.tdiv A.width 2)
  · rw [if_pos h]
    exact ⟨fun _ => h, fun _ => rfl⟩
  · rw [if_neg h]
    exact ⟨fun hb => absurd hb (by simp), fun hc => absurd hc h⟩

theorem segShapeCollideSeg_actual_getD (A : SEGMENT) (s : Seg) (clr : Int) (wL : Bool)
    (hh : (segShapeCollideSeg A s clr true wL).hit = true) :
    (segShapeCollideSeg A s clr true wL).actual.getD 0 =
      max 0 (isqrt (segSegSq A.seg s) - Int.tdiv A.width 2) := by
  unfold segShapeCollideSeg at hh ⊢
  by_cases h : 0 < clr + Int.tdiv A.width 2 ∧
      segSegSq A.seg s < (clr + Int.tdiv A.width 2) * (clr + Int.tdiv A.width 2)
  · rw [if_pos h]
    rfl
  · rw [if_neg h] at hh
    simp at hh

theorem collideSegSeg_hit_eq (A B : SEGMENT) (clr : Int) (wA wL wM : Bool) :
    (collideSegSeg A B clr wA wL wM).hit =
      (segShapeCollideSeg A B.seg (clr + Int.tdiv B.width 2) wA wL).hit := by
  unfold collideSegSeg
  by_cases h : (segShapeCollideSeg A B.seg (clr + Int.tdiv B.width 2) wA wL).hit = true
  · rw [if_pos h, h]
  · rw [if_neg h]
    rw [Bool.not_eq_true] at h
    rw [h]
    rfl

theorem collideSegSeg_actual_none (A B : SEGMENT) (clr : Int) (wL wM : Bool) :
    (collideSegSeg A B clr false wL wM).actual = none := by
  unfold collideSegSeg
  split <;> rfl

theorem collideSegSeg_miss_actual (A B : SEGMENT) (clr : Int) (wA wL wM : Bool)
    (hh : (collideSegSeg A B clr wA wL wM).hit = false) :
    (collideSegSeg A B clr wA wL wM).actual = none := by
  unfold collideSegSeg at hh ⊢
  by_cases h : (segShapeCollideSeg A B.seg (clr + Int.tdiv B.width 2) wA wL).hit = true
  · rw [if_pos h] at hh
    simp at hh
  · rw [if_neg h]
    rfl

theorem collideSegSeg_actual_eq (A B : SEGMENT) (clr : Int) (wL wM : Bool)
    (hh : (collideSegSeg A B clr true wL wM).hit = true) :
    (collideSegSeg A B clr true wL wM).actual =
      some (max 0 (max 0 (isqrt (segSegSq A.seg B.seg) - Int.tdiv A.width 2) -
        Int.tdiv B.width 2)) := by
  rw [collideSegSeg_hit_eq] at hh
  unfold collideSegSeg
  rw [if_pos hh]
  show some (max 0 ((segShapeCollideSeg A B.seg (clr + Int.tdiv B.width 2) true wL).actual.getD 0
    - Int.tdiv B.width 2)) = _
  rw [segShapeCollideSeg_actual_getD A B.seg (clr + Int.tdiv B.width 2) wL hh]

/-- Segment–segment (stadium) collision is symmetric for hit and actual:
both half-widths inflate the clearance and are both subtracted back out of
the reported distance. -/
theorem collideSegSeg_swap (A B : SEGMENT) (clr : Int) (wA wL wM : Bool)
    (ha : 0 ≤ A.width) (hb : 0 ≤ B.width) :
    (collideSegSeg B A clr wA wL wM).hit = (collideSegSeg A B clr wA wL wM).hit ∧
    (collideSegSeg B A clr wA wL wM).actual = (collideSegSeg A B clr wA wL wM).actual := by
  have ha2 : 0 ≤ Int.tdiv A.width 2 := Int.tdiv_nonneg ha (by norm_num)
  have hb2 : 0 ≤ Int.tdiv B.width 2 := Int.tdiv_nonneg hb (by norm_num)
  have hsum : clr + Int.tdiv A.width 2 + Int.tdiv B.width 2 =
      clr + Int.tdiv B.width 2 + Int.tdiv A.width 2 := by ring
  have hhit : (collideSegSeg B A clr wA wL wM).hit = (collideSegSeg A B clr wA wL wM).hit := by
    rw [collideSegSeg_hit_eq, collideSegSeg_hit_eq]
    apply bool_eq_of_true_iff
    rw [segShapeCollideSeg_hit_iff, segShapeCollideSeg_hit_iff, segSegSq_comm, hsum]
  refine ⟨hhit, ?_⟩
  cases wA with
  | false => rw [collideSegSeg_actual_none, collideSegSeg_actual_none]
  | true =>
    by_cases hAB : (collideSegSeg A B clr true wL wM).hit = true
    · have hBA : (collideSegSeg B A clr true wL wM).hit = true := by
        rw [hhit]; exact hAB
      rw [collideSegSeg_actual_eq B A clr wL wM hBA,
        collideSegSeg_actual_eq A B clr wL wM hAB, segSegSq_comm B.seg A.seg,
        max_collapse _ _ _ hb2 ha2, max_collapse _ _ _ ha2 hb2]
      congr 2
      ring
    · rw [collideSegSeg_miss_actual B A clr true wL wM
          (by rw [hhit]; exact Bool.not_eq_true _ ▸ hAB),
        collideSegSeg_miss_actual A B clr true wL wM (Bool.not_eq_true _ ▸ hAB)]

theorem mtv_none_pair {r1 r2 : CollResult} (h1 : r1.mtv = none) (h2 : r2.mtv = none) :
    r1.mtv = (r2.mtv).map Neg.neg := by
  rw [h1, h2]
  rfl

/-- C2 (amended): for every pair of non-compound shapes (with nonnegative
segment widths and a clearance within the `int` range) swapping the
dispatcher's arguments preserves the boolean result and the reported actual
distance; the reported location is preserved whenever the two shapes are of
different kinds; and the reported MTV of the swapped query is the negation
of the direct one — except for the circle–polyline and
circle–simple-polygon pairings, which lines 542 and 603 dispatch without
`CollCaseReversed`, so both argument orders return the identical
(un-negated) MTV. -/
theorem collideSingleShapesSwap (A B : Shape) (clr : Int) (wA wL wM : Bool)
    (hA : A.isCompound = false) (hB : B.isCompound = false)
    (hwa : segWidthOk A = true) (hwb : segWidthOk B = true)
    (hclr : clr ≤ intMax) :
    (collideSingleShapes B A clr wA wL wM).1.hit
        = (collideSingleShapes A B clr wA wL wM).1.hit ∧
    (collideSingleShapes B A clr wA wL wM).1.actual
        = (collideSingleShapes A B clr wA wL wM).1.actual ∧
    (sameKind A B = false →
      (collideSingleShapes B A clr wA wL wM).1.location
        = (collideSingleShapes A B clr wA wL wM).1.location) ∧
    (isCircleChainPair A B = true →
      (collideSingleShapes B A clr wA wL wM).1.mtv
        = (collideSingleShapes A B clr wA wL wM).1.mtv) ∧
    (isCircleChainPair A B = false →
      (collideSingleShapes B A clr wA wL wM).1.mtv
        = ((collideSingleShapes A B clr wA wL wM).1.mtv).map Neg.neg) := by
  cases A with
  | compound la => exact Bool.noConfusion hA
  | nullS =>
    cases B with
    | compound lb => exact Bool.noConfusion hB
    | rect b => exact ⟨rfl, rfl, fun _ => rfl, fun _ => rfl, fun _ => rfl⟩
    | circle b => exact ⟨rfl, rfl, fun _ => rfl, fun _ => rfl, fun _ => rfl⟩
    | chain b => exact ⟨rfl, rfl, fun _ => rfl, fun _ => rfl, fun _ => rfl⟩
    | seg b => exact ⟨rfl, rfl, fun _ => rfl, fun _ => rfl, fun _ => rfl⟩
    | simple b => exact ⟨rfl, rfl, fun _ => rfl, fun _ => rfl, fun _ => rfl⟩
    | arc b => exact ⟨rfl, rfl, fun _ => rfl, fun _ => rfl, fun _ => rfl⟩
    | nullS => exact ⟨rfl, rfl, fun _ => rfl, fun _ => rfl, fun _ => rfl⟩
  | rect a =>
    cases B with
    | compound lb => exact Bool.noConfusion hB
    | nullS => exact ⟨rfl, rfl, fun _ => rfl, fun _ => rfl, fun _ => rfl⟩
    | rect b =>
      exact ⟨(collideChainChain_swap (segsOf a.outline) (segsOf b.outline) clr wA wL wM hclr).1,
        (collideChainChain_swap (segsOf a.outline) (segsOf b.outline) clr wA wL wM hclr).2,
        fun h => Bool.noConfusion h, fun h => Bool.noConfusion h,
        fun _ => mtv_none_pair
          (collideChainChain_mtv_none (segsOf b.outline) (segsOf a.outline) clr wA wL wM)
          (collideChainChain_mtv_none (segsOf a.outline) (segsOf b.outline) clr wA wL wM)⟩
    | circle b =>
      exact ⟨mtvReversed_hit (collideRC a b clr wA wL wM),
        mtvReversed_actual (collideRC a b clr wA wL wM),
        fun _ => mtvReversed_location (collideRC a b clr wA wL wM),
        fun h => Bool.noConfusion h,
        fun _ => mtvReversed_mtv (collideRC a b clr wA wL wM)
          (collideRC_miss_mtv a b clr wA wL wM)⟩
    | chain b =>
      exact ⟨rfl, rfl, fun _ => rfl, fun h => Bool.noConfusion h,
        fun _ => mtv_none_pair (collideRectChain_mtv_none a b clr wA wL wM)
          (collideRectChain_mtv_none a b clr wA wL wM)⟩
    | seg b =>
      exact ⟨rfl, rfl, fun _ => rfl, fun h => Bool.noConfusion h,
        fun _ => mtv_none_pair (collideRectSeg_mtv_none a b clr wA wL wM)
          (collideRectSeg_mtv_none a b clr wA wL wM)⟩
    | simple b =>
      exact ⟨rfl, rfl, fun _ => rfl, fun h => Bool.noConfusion h,
        fun _ => mtv_none_pair (collideRectChain_mtv_none a b clr wA wL wM)
          (collideRectChain_mtv_none a b clr wA wL wM)⟩
    | arc b =>
      exact ⟨(mtvReversed_hit (collideArcRect b a clr wA wL wM)).symm,
        (mtvReversed_actual (collideArcRect b a clr wA wL wM)).symm,
        fun _ => (mtvReversed_location (collideArcRect b a clr wA wL wM)).symm,
        fun h => Bool.noConfusion h,
        fun _ => (mtv_unneg (collideArcRect b a clr wA wL wM)
          (fun _ => collideChainChain_mtv_none (segsOf b) (segsOf a.outline) clr wA wL wM)).symm⟩
  | circle a =>
    cases B with
    | compound lb => exact Bool.noConfusion hB
    | nullS => exact ⟨rfl, rfl, fun _ => rfl, fun _ => rfl, fun _ => rfl⟩
    | rect b =>
      exact ⟨(mtvReversed_hit (collideRC b a clr wA wL wM)).symm,
        (mtvReversed_actual (collideRC b a clr wA wL wM)).symm,
        fun _ => (mtvReversed_location (collideRC b a clr wA wL wM)).symm,
        fun h => Bool.noConfusion h,
        fun _ => (mtv_unneg (collideRC b a clr wA wL wM)
          (collideRC_miss_mtv b a clr wA wL wM)).symm⟩
    | circle b =>
      refine ⟨?_, ?_, fun h => Bool.noConfusion h, fun h => Bool.noConfusion h, fun _ => ?_⟩
      · show (collideCC b a clr wA wL wM).hit = (collideCC a b clr wA wL wM).hit
        rw [collideCC_swap a b clr wA wL wM, mtvReversed_hit]
      · show (collideCC b a clr wA wL wM).actual = (collideCC a b clr wA wL wM).actual
        rw [collideCC_swap a b clr wA wL wM, mtvReversed_actual]
      · show (collideCC b a clr wA wL wM).mtv = ((collideCC a b clr wA wL wM).mtv).map Neg.neg
        rw [collideCC_swap a b clr wA wL wM,
          mtvReversed_mtv (collideCC a b clr wA wL wM) (collideCC_miss_mtv a b clr wA wL wM)]
    | chain b =>
      exact ⟨rfl, rfl, fun _ => rfl, fun _ => rfl, fun h => Bool.noConfusion h⟩
    | seg b =>
      exact ⟨mtvReversed_hit (collideCircleSeg a b clr wA wL wM),
        mtvReversed_actual (collideCircleSeg a b clr wA wL wM),
        fun _ => mtvReversed_location (collideCircleSeg a b clr wA wL wM),
        fun h => Bool.noConfusion h,
        fun _ => mtvReversed_mtv (collideCircleSeg a b clr wA wL wM)
          (collideCircleSeg_miss_mtv a b clr wA wL wM)⟩
    | simple b =>
      exact ⟨rfl, rfl, fun _ => rfl, fun _ => rfl, fun h => Bool.noConfusion h⟩
    | arc b =>
      exact ⟨(mtvReversed_hit (collideArcCircle b a clr wA wL wM)).symm,
        (mtvReversed_actual (collideArcCircle b a clr wA wL wM)).symm,
        fun _ => (mtvReversed_location (collideArcCircle b a clr wA wL wM)).symm,
        fun h => Bool.noConfusion h,
        fun _ => (mtv_unneg (collideArcCircle b a clr wA wL wM)
          (mtvOk_reversed (collideCircleChain_miss_mtv a (segsOf b) clr wA wL wM))).symm⟩
  | chain a =>
    cases B with
    | compound lb => exact Bool.noConfusion hB
    | nullS => exact ⟨rfl, rfl, fun _ => rfl, fun _ => rfl, fun _ => rfl⟩
    | rect b =>
      exact ⟨rfl, rfl, fun _ => rfl, fun h => Bool.noConfusion h,
        fun _ => mtv_none_pair (collideRectChain_mtv_none b a clr wA wL wM)
          (collideRectChain_mtv_none b a clr wA wL wM)⟩
    | circle b =>
      exact ⟨rfl, rfl, fun _ => rfl, fun _ => rfl, fun h => Bool.noConfusion h⟩
    | chain b =>
      exact ⟨(collideChainChain_swap (segsOf a) (segsOf b) clr wA wL wM hclr).1,
        (collideChainChain_swap (segsOf a) (segsOf b) clr wA wL wM hclr).2,
        fun h => Bool.noConfusion h, fun h => Bool.noConfusion h,
        fun _ => mtv_none_pair (collideChainChain_mtv_none (segsOf b) (segsOf a) clr wA wL wM)
          (collideChainChain_mtv_none (segsOf a) (segsOf b) clr wA wL wM)⟩
    | seg b =>
      exact ⟨rfl, rfl, fun _ => rfl, fun h => Bool.noConfusion h,
        fun _ => mtv_none_pair (collideChainSeg_mtv_none (segsOf a) b clr wA wL wM)
          (collideChainSeg_mtv_none (segsOf a) b clr wA wL wM)⟩
    | simple b =>
      exact ⟨rfl, rfl, fun _ => rfl, fun h => Bool.noConfusion h,
        fun _ => mtv_none_pair (collideChainChain_mtv_none (segsOf a) (segsOf b) clr wA wL wM)
          (collideChainChain_mtv_none (segsOf a) (segsOf b) clr wA wL wM)⟩
    | arc b =>
      exact ⟨(mtvReversed_hit (collideArcChain b a clr wA wL wM)).symm,
        (mtvReversed_actual (collideArcChain b a clr wA wL wM)).symm,
        fun _ => (mtvReversed_location (collideArcChain b a clr wA wL wM)).symm,
        fun h => Bool.noConfusion h,
        fun _ => (mtv_unneg (collideArcChain b a clr wA wL wM)
          (fun _ => collideChainChain_mtv_none (segsOf b) (segsOf a) clr wA wL wM)).symm⟩
  | seg a =>
    cases B with
    | compound lb => exact Bool.noConfusion hB
    | nullS => exact ⟨rfl, rfl, fun _ => rfl, fun _ => rfl, fun _ => rfl⟩
    | rect b =>
      exact ⟨rfl, rfl, fun _ => rfl, fun h => Bool.noConfusion h,
        fun _ => mtv_none_pair (collideRectSeg_mtv_none b a clr wA wL wM)
          (collideRectSeg_mtv_none b a clr wA wL wM)⟩
    | circle b =>
      exact ⟨(mtvReversed_hit (collideCircleSeg b a clr wA wL wM)).symm,
        (mtvReversed_actual (collideCircleSeg b a clr wA wL wM)).symm,
        fun _ => (mtvReversed_location (collideCircleSeg b a clr wA wL wM)).symm,
        fun h => Bool.noConfusion h,
        fun _ => (mtv_unneg (collideCircleSeg b a clr wA wL wM)
          (collideCircleSeg_miss_mtv b a clr wA wL wM)).symm⟩
    | chain b =>
      exact ⟨rfl, rfl, fun _ => rfl, fun h => Bool.noConfusion h,
        fun _ => mtv_none_pair (collideChainSeg_mtv_none (segsOf b) a clr wA wL wM)
          (collideChainSeg_mtv_none (segsOf b) a clr wA wL wM)⟩
    | seg b =>
      have ha : 0 ≤ a.width := of_decide_eq_true hwa
      have hb : 0 ≤ b.width := of_decide_eq_true hwb
      exact ⟨(collideSegSeg_swap a b clr wA wL wM ha hb).1,
        (collideSegSeg_swap a b clr wA wL wM ha hb).2,
        fun h => Bool.noConfusion h, fun h => Bool.noConfusion h,
        fun _ => mtv_none_pair (collideSegSeg_mtv_none b a clr wA wL wM)
          (collideSegSeg_mtv_none a b clr wA wL wM)⟩
    | simple b =>
      exact ⟨rfl, rfl, fun _ => rfl, fun h => Bool.noConfusion h,
        fun _ => mtv_none_pair (collideChainSeg_mtv_none (segsOf b) a clr wA wL wM)
          (collideChainSeg_mtv_none (segsOf b) a clr wA wL wM)⟩
    | arc b =>
      exact ⟨(mtvReversed_hit (collideArcSeg b a clr wA wL wM)).symm,
        (mtvReversed_actual (collideArcSeg b a clr wA wL wM)).symm,
        fun _ => (mtvReversed_location (collideArcSeg b a clr wA wL wM)).symm,
        fun h => Bool.noConfusion h,
        fun _ => (mtv_unneg (collideArcSeg b a clr wA wL wM)
          (fun _ => collideChainSeg_mtv_none (segsOf b) a clr wA wL wM)).symm⟩
  | simple a =>
    cases B with
    | compound lb => exact Bool.noConfusion hB
    | nullS => exact ⟨rfl, rfl, fun _ => rfl, fun _ => rfl, fun _ => rfl⟩
    | rect b =>
      exact ⟨rfl, rfl, fun _ => rfl, fun h => Bool.noConfusion h,
        fun _ => mtv_none_pair (collideRectChain_mtv_none b a clr wA wL wM)
          (collideRectChain_mtv_none b a clr wA wL wM)⟩
    | circle b =>
      exact ⟨rfl, rfl, fun _ => rfl, fun _ => rfl, fun h => Bool.noConfusion h⟩
    | chain b =>
      exact ⟨rfl, rfl, fun _ => rfl, fun h => Bool.noConfusion h,
        fun _ => mtv_none_pair (collideChainChain_mtv_none (segsOf b) (segsOf a) clr wA wL wM)
          (collideChainChain_mtv_none (segsOf b) (segsOf a) clr wA wL wM)⟩
    | seg b =>
      exact ⟨rfl, rfl, fun _ => rfl, fun h => Bool.noConfusion h,
        fun _ => mtv_none_pair (collideChainSeg_mtv_none (segsOf a) b clr wA wL wM)
          (collideChainSeg_mtv_none (segsOf a) b clr wA wL wM)⟩
    | simple b =>
      exact ⟨(collideChainChain_swap (segsOf a) (segsOf b) clr wA wL wM hclr).1,
        (collideChainChain_swap (segsOf a) (segsOf b) clr wA wL wM hclr).2,
        fun h => Bool.noConfusion h, fun h => Bool.noConfusion h,
        fun _ => mtv_none_pair (collideChainChain_mtv_none (segsOf b) (segsOf a) clr wA wL wM)
          (collideChainChain_mtv_none (segsOf a) (segsOf b) clr wA wL wM)⟩
    | arc b =>
      exact ⟨(mtvReversed_hit (collideArcChain b a clr wA wL wM)).symm,
        (mtvReversed_actual (collideArcChain b a clr wA wL wM)).symm,
        fun _ => (mtvReversed_location (collideArcChain b a clr wA wL wM)).symm,
        fun h => Bool.noConfusion h,
        fun _ => (mtv_unneg (collideArcChain b a clr wA wL wM)
          (fun _ => collideChainChain_mtv_none (segsOf b) (segsOf a) clr wA wL wM)).symm⟩
  | arc a =>
    cases B with
    | compound lb => exact Bool.noConfusion hB
    | nullS => exact ⟨rfl, rfl, fun _ => rfl, fun _ => rfl, fun _ => rfl⟩
    | rect b =>
      exact ⟨mtvReversed_hit (collideArcRect a b clr wA wL wM),
        mtvReversed_actual (collideArcRect a b clr wA wL wM),
        fun _ => mtvReversed_location (collideArcRect a b clr wA wL wM),
        fun h => Bool.noConfusion h,
        fun _ => mtvReversed_mtv (collideArcRect a b clr wA wL wM)
          (fun _ => collideChainChain_mtv_none (segsOf a) (segsOf b.outline) clr wA wL wM)⟩
    | circle b =>
      exact ⟨mtvReversed_hit (collideArcCircle a b clr wA wL wM),
        mtvReversed_actual (collideArcCircle a b clr wA wL wM),
        fun _ => mtvReversed_location (collideArcCircle a b clr wA wL wM),
        fun h => Bool.noConfusion h,
        fun _ => mtvReversed_mtv (collideArcCircle a b clr wA wL wM)
          (mtvOk_reversed (collideCircleChain_miss_mtv b (segsOf a) clr wA wL wM))⟩
    | chain b =>
      exact ⟨mtvReversed_hit (collideArcChain a b clr wA wL wM),
        mtvReversed_actual (collideArcChain a b clr wA wL wM),
        fun _ => mtvReversed_location (collideArcChain a b clr wA wL wM),
        fun h => Bool.noConfusion h,
        fun _ => mtvReversed_mtv (collideArcChain a b clr wA wL wM)
          (fun _ => collideChainChain_mtv_none (segsOf a) (segsOf b) clr wA wL wM)⟩
    | seg b =>
      exact ⟨mtvReversed_hit (collideArcSeg a b clr wA wL wM),
        mtvReversed_actual (collideArcSeg a b clr wA wL wM),
        fun _ => mtvReversed_location (collideArcSeg a b clr wA wL wM),
        fun h => Bool.noConfusion h,
        fun _ => mtvReversed_mtv (collideArcSeg a b clr wA wL wM)
          (fun _ => collideChainSeg_mtv_none (segsOf a) b clr wA wL wM)⟩
    | simple b =>
      exact ⟨mtvReversed_hit (collideArcChain a b clr wA wL wM),
        mtvReversed_actual (collideArcChain a b clr wA wL wM),
        fun _ => mtvReversed_location (collideArcChain a b clr wA wL wM),
        fun h => Bool.noConfusion h,
        fun _ => mtvReversed_mtv (collideArcChain a b clr wA wL wM)
          (fun _ => collideChainChain_mtv_none (segsOf a) (segsOf b) clr wA wL wM)⟩
    | arc b =>
      exact ⟨(collideChainChain_swap (segsOf a) (segsOf b) clr wA wL wM hclr).1,
        (collideChainChain_swap (segsOf a) (segsOf b) clr wA wL wM hclr).2,
        fun h => Bool.noConfusion h, fun h => Bool.noConfusion h,
        fun _ => mtv_none_pair (collideChainChain_mtv_none (segsOf b) (segsOf a) clr wA wL wM)
          (collideChainChain_mtv_none (segsOf a) (segsOf b) clr wA wL wM)⟩

/-- C2 (counterexample): a circle against a vertical polyline at clearance 1
collides in both argument orders, and both orders return the same nonzero
MTV (−3, 0) — the swapped order is not the negation, because lines 542/603
swap the arguments into the circle–chain routine without the
`CollCaseReversed` negation. -/
theorem circleChainMTVNotNegated :
    (collideSingleShapes (.circle ⟨⟨0,0⟩,5⟩) (.chain ⟨[⟨3,-10⟩,⟨3,10⟩], false⟩)
      1 false false true).1.mtv = some ⟨-3,0⟩ ∧
    (collideSingleShapes (.chain ⟨[⟨3,-10⟩,⟨3,10⟩], false⟩) (.circle ⟨⟨0,0⟩,5⟩)
      1 false false true).1.mtv = some ⟨-3,0⟩ ∧
    (some (⟨-3,0⟩ : V2) ≠ some (-(⟨-3,0⟩ : V2))) := by
  decide

/-- Witness for `collideSingleShapesSwap` on a circle–rectangle pair at
clearance 4: all hypotheses hold concretely and the swapped query agrees
with the direct one up to MTV negation. -/
theorem collideSingleShapesSwap_witness :
    ((Shape.circle ⟨⟨0,0⟩,5⟩).isCompound = false) ∧
    ((Shape.rect ⟨⟨8,0⟩,⟨10,10⟩⟩).isCompound = false) ∧
    (segWidthOk (Shape.circle ⟨⟨0,0⟩,5⟩) = true) ∧
    (segWidthOk (Shape.rect ⟨⟨8,0⟩,⟨10,10⟩⟩) = true) ∧
    ((4:Int) ≤ intMax) ∧
    ((collideSingleShapes (Shape.rect ⟨⟨8,0⟩,⟨10,10⟩⟩) (Shape.circle ⟨⟨0,0⟩,5⟩)
        4 true true true).1.hit
      = (collideSingleShapes (Shape.circle ⟨⟨0,0⟩,5⟩) (Shape.rect ⟨⟨8,0⟩,⟨10,10⟩⟩)
        4 true true true).1.hit ∧
     (collideSingleShapes (Shape.rect ⟨⟨8,0⟩,⟨10,10⟩⟩) (Shape.circle ⟨⟨0,0⟩,5⟩)
        4 true true true).1.actual
      = (collideSingleShapes (Shape.circle ⟨⟨0,0⟩,5⟩) (Shape.rect ⟨⟨8,0⟩,⟨10,10⟩⟩)
        4 true true true).1.actual ∧
     (sameKind (Shape.circle ⟨⟨0,0⟩,5⟩) (Shape.rect ⟨⟨8,0⟩,⟨10,10⟩⟩) = false →
       (collideSingleShapes (Shape.rect ⟨⟨8,0⟩,⟨10,10⟩⟩) (Shape.circle ⟨⟨0,0⟩,5⟩)
          4 true true true).1.location
        = (collideSingleShapes (Shape.circle ⟨⟨0,0⟩,5⟩) (Shape.rect ⟨⟨8,0⟩,⟨10,10⟩⟩)
          4 true true true).1.location) ∧
     (isCircleChainPair (Shape.circle ⟨⟨0,0⟩,5⟩) (Shape.rect ⟨⟨8,0⟩,⟨10,10⟩⟩) = true →
       (collideSingleShapes (Shape.rect ⟨⟨8,0⟩,⟨10,10⟩⟩) (Shape.circle ⟨⟨0,0⟩,5⟩)
          4 true true true).1.mtv
        = (collideSingleShapes (Shape.circle ⟨⟨0,0⟩,5⟩) (Shape.rect ⟨⟨8,0⟩,⟨10,10⟩⟩)
          4 true true true).1.mtv) ∧
     (isCircleChainPair (Shape.circle ⟨⟨0,0⟩,5⟩) (Shape.rect ⟨⟨8,0⟩,⟨10,10⟩⟩) = false →
       (collideSingleShapes (Shape.rect ⟨⟨8,0⟩,⟨10,10⟩⟩) (Shape.circle ⟨⟨0,0⟩,5⟩)
          4 true true true).1.mtv
        = ((collideSingleShapes (Shape.circle ⟨⟨0,0⟩,5⟩) (Shape.rect ⟨⟨8,0⟩,⟨10,10⟩⟩)
          4 true true true).1.mtv).map Neg.neg)) :=
  ⟨by decide, by decide, by decide, by decide, by decide,
    collideSingleShapesSwap (Shape.circle ⟨⟨0,0⟩,5⟩) (Shape.rect ⟨⟨8,0⟩,⟨10,10⟩⟩)
      4 true true true (by decide) (by decide) (by decide) (by decide) (by decide)⟩
